import Mathlib

/-!
Verification of the retrieval core of the garbage-in-garbage-out repository:
the reference extraction / correlation / deduplication subsystem
(src/gigo_retrieval/src/references/), the result formatter and the
retrieval strategies (src/gigo_retrieval/src/strategies/).

Python values flowing through payloads are modelled by the JSON-like type
`Val`; fallible Python code (attribute errors, type errors, pydantic
validation errors) is modelled in the `Except String` monad; the on-disk
filesystem and the vector store are modelled as explicit oracles.
-/

namespace Gigo

/-! ### Decimal representation infrastructure

The deduplication code builds string keys with Python f-strings
(`f"{element_id}_{page_number}"`).  To relate those string keys to the
(element_id, page_number) pairs the spec talks about, we need that the
decimal rendering of an optional integer is injective and never contains
an underscore.  `natToChars` is a structural restatement of core's
fuel-based `Nat.toDigitsCore` at base 10. -/

def natToChars (n : Nat) : List Char :=
  if n < 10 then [Nat.digitChar n]
  else natToChars (n / 10) ++ [Nat.digitChar (n % 10)]
decreasing_by exact Nat.div_lt_self (by omega) (by omega)

theorem natToChars_lt {n : Nat} (h : n < 10) : natToChars n = [Nat.digitChar n] := by
  rw [natToChars, if_pos h]

theorem natToChars_ge {n : Nat} (h : ¬ n < 10) :
    natToChars n = natToChars (n / 10) ++ [Nat.digitChar (n % 10)] := by
  rw [natToChars, if_neg h]

theorem toDigitsCore_eq_natToChars (fuel : Nat) :
    ∀ n ds, n < fuel → Nat.toDigitsCore 10 fuel n ds = natToChars n ++ ds := by
  induction fuel with
  | zero => intro n ds h; omega
  | succ fuel ih =>
    intro n ds h
    simp only [Nat.toDigitsCore]
    split
    next h0 =>
      have hn : n < 10 := by omega
      rw [natToChars_lt hn, Nat.mod_eq_of_lt hn]
      simp
    next h0 =>
      have hn : ¬ n < 10 := by omega
      have hlt : n / 10 < fuel := by
        have hdn : n / 10 < n := Nat.div_lt_self (by omega) (by omega)
        omega
      rw [ih (n / 10) _ hlt, natToChars_ge hn]
      simp

theorem nat_repr_eq (n : Nat) : Nat.repr n = (natToChars n).asString := by
  rw [Nat.repr, Nat.toDigits, toDigitsCore_eq_natToChars (n + 1) n [] (by omega)]
  simp

theorem nat_repr_data (n : Nat) : (Nat.repr n).data = natToChars n := by
  rw [nat_repr_eq]; rfl

theorem digitChar_toNat (d : Nat) (h : d < 10) : (Nat.digitChar d).toNat = 48 + d := by
  interval_cases d <;> rfl

def decDigits : List Char := ['0', '1', '2', '3', '4', '5', '6', '7', '8', '9']

theorem digitChar_mem (d : Nat) (h : d < 10) : Nat.digitChar d ∈ decDigits := by
  interval_cases d <;> decide

theorem natToChars_ne_nil (n : Nat) : natToChars n ≠ [] := by
  rw [natToChars]
  split <;> simp

theorem natToChars_mem (n : Nat) : ∀ c ∈ natToChars n, c ∈ decDigits := by
  induction n using Nat.strong_induction_on with
  | _ n ih =>
    rw [natToChars]
    split
    next h =>
      intro c hc
      simp only [List.mem_singleton] at hc
      subst hc
      exact digitChar_mem n h
    next h =>
      intro c hc
      rcases List.mem_append.mp hc with h1 | h1
      · exact ih (n / 10) (Nat.div_lt_self (by omega) (by omega)) c h1
      · simp only [List.mem_singleton] at h1
        subst h1
        exact digitChar_mem _ (Nat.mod_lt _ (by omega))

theorem natToChars_inj : ∀ m n : Nat, natToChars m = natToChars n → m = n := by
  intro m
  induction m using Nat.strong_induction_on with
  | _ m ih =>
    intro n h
    by_cases hm : m < 10 <;> by_cases hn : n < 10
    · rw [natToChars_lt hm, natToChars_lt hn] at h
      simp only [List.cons.injEq, and_true] at h
      have := congrArg Char.toNat h
      rw [digitChar_toNat m hm, digitChar_toNat n hn] at this
      omega
    · rw [natToChars_lt hm, natToChars_ge hn] at h
      have hl := congrArg List.length h
      simp only [List.length_singleton, List.length_append, List.length_cons] at hl
      have hz : natToChars (n / 10) = [] := List.length_eq_zero.mp (by omega)
      exact absurd hz (natToChars_ne_nil (n / 10))
    · rw [natToChars_ge hm, natToChars_lt hn] at h
      have hl := congrArg List.length h
      simp only [List.length_singleton, List.length_append, List.length_cons] at hl
      have hz : natToChars (m / 10) = [] := List.length_eq_zero.mp (by omega)
      exact absurd hz (natToChars_ne_nil (m / 10))
    · rw [natToChars_ge hm, natToChars_ge hn] at h
      obtain ⟨h1, h2⟩ := List.append_inj' h (by simp)
      have hdiv := ih (m / 10) (Nat.div_lt_self (by omega) (by omega)) (n / 10) h1
      simp only [List.cons.injEq, and_true] at h2
      have := congrArg Char.toNat h2
      rw [digitChar_toNat _ (Nat.mod_lt _ (by omega)),
          digitChar_toNat _ (Nat.mod_lt _ (by omega))] at this
      omega

theorem nat_repr_inj {m n : Nat} (h : Nat.repr m = Nat.repr n) : m = n := by
  apply natToChars_inj
  have := congrArg String.data h
  rwa [nat_repr_data, nat_repr_data] at this

theorem int_repr_data_ofNat (m : Nat) :
    (Int.repr (Int.ofNat m)).data = natToChars m := by
  rw [Int.repr, nat_repr_data]

theorem int_repr_data_negSucc (m : Nat) :
    (Int.repr (Int.negSucc m)).data = '-' :: natToChars (m + 1) := by
  rw [Int.repr]
  have h : ("-" ++ Nat.repr (m + 1)).data = "-".data ++ (Nat.repr (m + 1)).data := by
    simp
  rw [h, nat_repr_data]
  rfl

theorem int_repr_mem (i : Int) : ∀ c ∈ (Int.repr i).data, c = '-' ∨ c ∈ decDigits := by
  cases i with
  | ofNat m =>
    rw [int_repr_data_ofNat]
    intro c hc
    exact Or.inr (natToChars_mem m c hc)
  | negSucc m =>
    rw [int_repr_data_negSucc]
    intro c hc
    rcases List.mem_cons.mp hc with h | h
    · exact Or.inl h
    · exact Or.inr (natToChars_mem _ c h)

theorem int_repr_inj : ∀ i j : Int, Int.repr i = Int.repr j → i = j := by
  intro i j h
  have hd := congrArg String.data h
  cases i with
  | ofNat m =>
    cases j with
    | ofNat n =>
      rw [int_repr_data_ofNat, int_repr_data_ofNat] at hd
      exact congrArg Int.ofNat (natToChars_inj m n hd)
    | negSucc n =>
      rw [int_repr_data_ofNat, int_repr_data_negSucc] at hd
      have hm : '-' ∈ natToChars m := by rw [hd]; exact List.mem_cons_self _ _
      have := natToChars_mem m '-' hm
      simp [decDigits] at this
  | negSucc m =>
    cases j with
    | ofNat n =>
      rw [int_repr_data_negSucc, int_repr_data_ofNat] at hd
      have hm : '-' ∈ natToChars n := by rw [← hd]; exact List.mem_cons_self _ _
      have := natToChars_mem n '-' hm
      simp [decDigits] at this
    | negSucc n =>
      rw [int_repr_data_negSucc, int_repr_data_negSucc] at hd
      injection hd with h1 h2
      have h3 := natToChars_inj (m + 1) (n + 1) h2
      have h4 : m = n := by omega
      rw [h4]

/-! ### Splitting a string at its last underscore -/

theorem decDigit_ne {c : Char} (h : c ∈ decDigits) : c ≠ '_' ∧ c ≠ '-' ∧ c ≠ 'N' := by
  simp only [decDigits, List.mem_cons, List.mem_singleton, List.not_mem_nil, or_false] at h
  rcases h with rfl | rfl | rfl | rfl | rfl | rfl | rfl | rfl | rfl | rfl <;>
    exact ⟨by decide, by decide, by decide⟩

theorem takeWhile_underscore (l r : List Char) (hl : ∀ c ∈ l, c ≠ '_') :
    (l ++ '_' :: r).takeWhile (fun c => c != '_') = l := by
  rw [List.takeWhile_append_of_pos (by intro a ha; simpa using hl a ha)]
  rw [List.takeWhile_cons]
  simp

theorem split_underscore {l1 r1 l2 r2 : List Char}
    (h : l1 ++ '_' :: r1 = l2 ++ '_' :: r2)
    (h1 : ∀ c ∈ r1, c ≠ '_') (h2 : ∀ c ∈ r2, c ≠ '_') :
    l1 = l2 ∧ r1 = r2 := by
  have e1 : (l1 ++ '_' :: r1).reverse = r1.reverse ++ '_' :: l1.reverse := by simp
  have e2 : (l2 ++ '_' :: r2).reverse = r2.reverse ++ '_' :: l2.reverse := by simp
  have hrev : r1.reverse ++ '_' :: l1.reverse = r2.reverse ++ '_' :: l2.reverse := by
    rw [← e1, ← e2, h]
  have ht := congrArg (List.takeWhile (fun c => c != '_')) hrev
  rw [takeWhile_underscore _ _ (by intro c hc; exact h1 c (List.mem_reverse.mp hc)),
      takeWhile_underscore _ _ (by intro c hc; exact h2 c (List.mem_reverse.mp hc))] at ht
  have hr : r1 = r2 := by
    have := congrArg List.reverse ht
    simpa using this
  subst hr
  obtain ⟨hl, -⟩ := List.append_inj' h rfl
  exact ⟨hl, rfl⟩

/-! ### Reference data model (src/gigo_retrieval/src/references/models.py) -/

structure TableReference where
  sub_question : String
  element_id : String
  page_number : Option Int := none
  png_file : Option String := none
  html_file : Option String := none
deriving DecidableEq, Repr

structure FigureReference where
  sub_question : String
  label : String
  page_number : Option Int := none
  png_file : Option String := none
deriving DecidableEq, Repr

structure References where
  tables : List TableReference := []
  figures : List FigureReference := []
deriving DecidableEq, Repr

/-- Python `f"{page_number}"` on an `Optional[int]`. -/
def pageStr : Option Int → String
  | none => "None"
  | some n => Int.repr n

theorem pageStr_no_underscore (p : Option Int) : ∀ c ∈ (pageStr p).data, c ≠ '_' := by
  cases p with
  | none => decide
  | some n =>
    intro c hc
    rcases int_repr_mem n c hc with h | h
    · subst h; decide
    · exact (decDigit_ne h).1

theorem pageStr_inj {p q : Option Int} (h : pageStr p = pageStr q) : p = q := by
  cases p with
  | none =>
    cases q with
    | none => rfl
    | some n =>
      exfalso
      have hmem : 'N' ∈ (Int.repr n).data := by
        rw [show Int.repr n = pageStr (some n) from rfl, ← h]
        decide
      rcases int_repr_mem n 'N' hmem with h' | h'
      · exact absurd h' (by decide)
      · exact absurd rfl (decDigit_ne h').2.2
  | some m =>
    cases q with
    | none =>
      exfalso
      have hmem : 'N' ∈ (Int.repr m).data := by
        rw [show Int.repr m = pageStr (some m) from rfl, h]
        decide
      rcases int_repr_mem m 'N' hmem with h' | h'
      · exact absurd h' (by decide)
      · exact absurd rfl (decDigit_ne h').2.2
    | some n => exact congrArg some (int_repr_inj m n h)

theorem strKey_inj {e1 e2 : String} {p1 p2 : Option Int}
    (h : e1 ++ "_" ++ pageStr p1 = e2 ++ "_" ++ pageStr p2) : e1 = e2 ∧ p1 = p2 := by
  have hd := congrArg String.data h
  simp only [String.data_append, List.append_assoc, List.singleton_append] at hd
  obtain ⟨h1, h2⟩ := split_underscore hd (pageStr_no_underscore p1) (pageStr_no_underscore p2)
  exact ⟨String.ext h1, pageStr_inj (String.ext h2)⟩

/-! ### Deduplication (src/gigo_retrieval/src/references/extractor.py,
`deduplicate_references`): Python iterates the list keeping a `seen` set of
string keys `f"{element_id}_{page_number}"` / `f"{label}_{page_number}"`,
appending a reference only when its key is unseen. -/

def tableKey (t : TableReference) : String :=
  t.element_id ++ "_" ++ pageStr t.page_number

def figureKey (f : FigureReference) : String :=
  f.label ++ "_" ++ pageStr f.page_number

def dedupLoop {α : Type} (key : α → String) : List α → List String → List α
  | [], _ => []
  | x :: xs, seen =>
    if key x ∈ seen then dedupLoop key xs seen
    else x :: dedupLoop key xs (key x :: seen)

def deduplicate_references (refs : References) : References :=
  { tables := dedupLoop tableKey refs.tables [],
    figures := dedupLoop figureKey refs.figures [] }

theorem tableKey_eq_iff (t u : TableReference) :
    tableKey t = tableKey u ↔ t.element_id = u.element_id ∧ t.page_number = u.page_number := by
  constructor
  · exact strKey_inj
  · rintro ⟨h1, h2⟩
    unfold tableKey
    rw [h1, h2]

theorem figureKey_eq_iff (t u : FigureReference) :
    figureKey t = figureKey u ↔ t.label = u.label ∧ t.page_number = u.page_number := by
  constructor
  · exact strKey_inj
  · rintro ⟨h1, h2⟩
    unfold figureKey
    rw [h1, h2]

section DedupLemmas

variable {α : Type} (key : α → String)

theorem dedupLoop_sublist : ∀ (xs : List α) (seen : List String),
    (dedupLoop key xs seen).Sublist xs := by
  intro xs
  induction xs with
  | nil => intro seen; simp [dedupLoop]
  | cons x xs ih =>
    intro seen
    rw [dedupLoop]
    split
    · exact (ih seen).cons x
    · exact (ih (key x :: seen)).cons₂ x

theorem dedupLoop_key_not_seen : ∀ (xs : List α) (seen : List String),
    ∀ u ∈ dedupLoop key xs seen, key u ∉ seen := by
  intro xs
  induction xs with
  | nil => intro seen u hu; simp [dedupLoop] at hu
  | cons x xs ih =>
    intro seen u hu
    rw [dedupLoop] at hu
    split at hu
    · exact ih seen u hu
    next hx =>
      rcases List.mem_cons.mp hu with rfl | hu'
      · exact hx
      · have := ih (key x :: seen) u hu'
        intro hc
        exact this (List.mem_cons_of_mem _ hc)

theorem dedupLoop_pairwise : ∀ (xs : List α) (seen : List String),
    (dedupLoop key xs seen).Pairwise (fun a b => key a ≠ key b) := by
  intro xs
  induction xs with
  | nil => intro seen; simp [dedupLoop]
  | cons x xs ih =>
    intro seen
    rw [dedupLoop]
    split
    · exact ih seen
    · refine List.Pairwise.cons ?_ (ih (key x :: seen))
      intro b hb hkey
      have := dedupLoop_key_not_seen key xs (key x :: seen) b hb
      exact this (by rw [← hkey]; exact List.mem_cons_self _ _)

theorem dedupLoop_find : ∀ (xs : List α) (seen : List String),
    ∀ u ∈ dedupLoop key xs seen, xs.find? (fun x => key x == key u) = some u := by
  intro xs
  induction xs with
  | nil => intro seen u hu; simp [dedupLoop] at hu
  | cons x xs ih =>
    intro seen u hu
    rw [dedupLoop] at hu
    split at hu
    next hx =>
      have hu' := dedupLoop_key_not_seen key xs seen u hu
      have hne : (key x == key u) = false := by
        rw [beq_eq_false_iff_ne]
        intro hc
        rw [hc] at hx
        exact hu' hx
      rw [List.find?_cons, hne]
      exact ih seen u hu
    next hx =>
      rcases List.mem_cons.mp hu with rfl | hu'
      · rw [List.find?_cons, beq_self_eq_true]
      · have hu'' := dedupLoop_key_not_seen key xs (key x :: seen) u hu'
        have hne : (key x == key u) = false := by
          rw [beq_eq_false_iff_ne]
          intro hc
          exact hu'' (by rw [← hc]; exact List.mem_cons_self _ _)
        rw [List.find?_cons, hne]
        exact ih (key x :: seen) u hu'

theorem dedupLoop_covers : ∀ (xs : List α) (seen : List String),
    ∀ x ∈ xs, key x ∉ seen → ∃ u ∈ dedupLoop key xs seen, key u = key x := by
  intro xs
  induction xs with
  | nil => intro seen x hx; simp at hx
  | cons y xs ih =>
    intro seen x hx hnot
    rw [dedupLoop]
    split
    next hy =>
      rcases List.mem_cons.mp hx with h1 | hx'
      · rw [h1] at hnot
        exact absurd hy hnot
      · exact ih seen x hx' hnot
    next hy =>
      rcases List.mem_cons.mp hx with h1 | hx'
      · exact ⟨y, List.mem_cons_self _ _, (congrArg key h1).symm⟩
      · by_cases hk : key x = key y
        · exact ⟨y, List.mem_cons_self _ _, hk.symm⟩
        · have : key x ∉ key y :: seen := by
            intro hc
            rcases List.mem_cons.mp hc with hc' | hc'
            · exact hk hc'
            · exact hnot hc'
          obtain ⟨u, hu, hku⟩ := ih (key y :: seen) x hx' this
          exact ⟨u, List.mem_cons_of_mem _ hu, hku⟩

theorem dedupLoop_eq_self : ∀ (xs : List α) (seen : List String),
    (∀ x ∈ xs, key x ∉ seen) → xs.Pairwise (fun a b => key a ≠ key b) →
    dedupLoop key xs seen = xs := by
  intro xs
  induction xs with
  | nil => intro seen _ _; rfl
  | cons x xs ih =>
    intro seen hseen hpw
    rw [dedupLoop]
    rw [if_neg (hseen x (List.mem_cons_self _ _))]
    congr 1
    rcases List.pairwise_cons.mp hpw with ⟨hx, hpw'⟩
    refine ih (key x :: seen) ?_ hpw'
    intro y hy hc
    rcases List.mem_cons.mp hc with hc' | hc'
    · exact hx y hy hc'.symm
    · exact hseen y (List.mem_cons_of_mem _ hy) hc'

end DedupLemmas

theorem findPred_congr {α : Type} (p q : α → Bool) (hpq : ∀ a, p a = q a) :
    ∀ l : List α, l.find? p = l.find? q := by
  intro l
  induction l with
  | nil => rfl
  | cons x xs ih => rw [List.find?_cons, List.find?_cons, hpq x, ih]

theorem tablePred_eq (u x : TableReference) :
    (tableKey x == tableKey u) =
      (x.element_id == u.element_id && x.page_number == u.page_number) := by
  rw [Bool.eq_iff_iff]
  simp only [beq_iff_eq, Bool.and_eq_true]
  exact tableKey_eq_iff x u

theorem figurePred_eq (u x : FigureReference) :
    (figureKey x == figureKey u) =
      (x.label == u.label && x.page_number == u.page_number) := by
  rw [Bool.eq_iff_iff]
  simp only [beq_iff_eq, Bool.and_eq_true]
  exact figureKey_eq_iff x u

/-- C5: deduplication is idempotent: `dedup(dedup(X)) = dedup(X)` for all
reference bundles `X`. -/
theorem deduplicate_references_idempotent (refs : References) :
    deduplicate_references (deduplicate_references refs) = deduplicate_references refs := by
  unfold deduplicate_references
  simp only [References.mk.injEq]
  constructor
  · exact dedupLoop_eq_self tableKey _ [] (by intro x _; simp)
      (dedupLoop_pairwise tableKey _ [])
  · exact dedupLoop_eq_self figureKey _ [] (by intro x _; simp)
      (dedupLoop_pairwise figureKey _ [])

/-- C3: for every input list of table and figure references,
`deduplicate_references` keeps the output in input order (a sublist), keeps
at least one representative of every (element_id/label, page_number) group,
keeps no two references of the same group, and every kept reference is the
first element of the input carrying its key pair (hence its `sub_question`
and all other fields are those of the first occurrence, unmerged). -/
theorem deduplicate_references_first_occurrence (refs : References) :
    ((deduplicate_references refs).tables.Sublist refs.tables) ∧
    ((deduplicate_references refs).figures.Sublist refs.figures) ∧
    (∀ t ∈ refs.tables, ∃ u ∈ (deduplicate_references refs).tables,
        u.element_id = t.element_id ∧ u.page_number = t.page_number) ∧
    (∀ f ∈ refs.figures, ∃ u ∈ (deduplicate_references refs).figures,
        u.label = f.label ∧ u.page_number = f.page_number) ∧
    ((deduplicate_references refs).tables.Pairwise fun u v =>
        ¬(u.element_id = v.element_id ∧ u.page_number = v.page_number)) ∧
    ((deduplicate_references refs).figures.Pairwise fun u v =>
        ¬(u.label = v.label ∧ u.page_number = v.page_number)) ∧
    (∀ u ∈ (deduplicate_references refs).tables,
        refs.tables.find?
          (fun x => x.element_id == u.element_id && x.page_number == u.page_number) = some u) ∧
    (∀ u ∈ (deduplicate_references refs).figures,
        refs.figures.find?
          (fun x => x.label == u.label && x.page_number == u.page_number) = some u) := by
  refine ⟨dedupLoop_sublist tableKey _ [], dedupLoop_sublist figureKey _ [], ?_, ?_, ?_, ?_, ?_, ?_⟩
  · intro t ht
    obtain ⟨u, hu, hk⟩ := dedupLoop_covers tableKey refs.tables [] t ht (by simp)
    exact ⟨u, hu, (tableKey_eq_iff u t).mp hk⟩
  · intro f hf
    obtain ⟨u, hu, hk⟩ := dedupLoop_covers figureKey refs.figures [] f hf (by simp)
    exact ⟨u, hu, (figureKey_eq_iff u f).mp hk⟩
  · refine (dedupLoop_pairwise tableKey refs.tables []).imp ?_
    intro a b hne hp
    exact hne ((tableKey_eq_iff a b).mpr hp)
  · refine (dedupLoop_pairwise figureKey refs.figures []).imp ?_
    intro a b hne hp
    exact hne ((figureKey_eq_iff a b).mpr hp)
  · intro u hu
    rw [← findPred_congr _ _ (tablePred_eq u) refs.tables]
    exact dedupLoop_find tableKey refs.tables [] u hu
  · intro u hu
    rw [← findPred_congr _ _ (figurePred_eq u) refs.figures]
    exact dedupLoop_find figureKey refs.figures [] u hu

/-- Witness for C3 at a concrete input: two table references sharing the key
(element_id "t-1", page 2) across different sub-questions collapse to the
first one, and a figure on a different page survives alongside. -/
theorem deduplicate_references_first_occurrence_witness :
    ∃ u ∈ (deduplicate_references
        { tables := [{ sub_question := "q1", element_id := "t-1", page_number := some 2 },
                     { sub_question := "q2", element_id := "t-1", page_number := some 2 }],
          figures := [] }).tables,
      u.element_id = TableReference.element_id
          { sub_question := "q2", element_id := "t-1", page_number := some 2 } ∧
      u.page_number = TableReference.page_number
          { sub_question := "q2", element_id := "t-1", page_number := some 2 } :=
  (deduplicate_references_first_occurrence
      { tables := [{ sub_question := "q1", element_id := "t-1", page_number := some 2 },
                   { sub_question := "q2", element_id := "t-1", page_number := some 2 }],
        figures := [] }).2.2.1
    { sub_question := "q2", element_id := "t-1", page_number := some 2 }
    (by simp)

/-! ### Python value model

Payload values are open-ended Python data (`Dict[str, Any]`).  `Val` is a
JSON-like model: null, bool, int, string, list, dict (a dict is a key/value
list in insertion order, which is also Python's iteration order). -/

inductive Val where
  | vNull : Val
  | vBool : Bool → Val
  | vInt : Int → Val
  | vStr : String → Val
  | vList : List Val → Val
  | vDict : List (String × Val) → Val
deriving BEq, Repr

mutual

def valDecEq : (a b : Val) → Decidable (a = b)
  | .vNull, .vNull => isTrue rfl
  | .vNull, .vBool _ => isFalse (fun h => Val.noConfusion h)
  | .vNull, .vInt _ => isFalse (fun h => Val.noConfusion h)
  | .vNull, .vStr _ => isFalse (fun h => Val.noConfusion h)
  | .vNull, .vList _ => isFalse (fun h => Val.noConfusion h)
  | .vNull, .vDict _ => isFalse (fun h => Val.noConfusion h)
  | .vBool _, .vNull => isFalse (fun h => Val.noConfusion h)
  | .vBool a, .vBool b =>
    if h : a = b then isTrue (by rw [h])
    else isFalse (by intro hc; injection hc with h2; exact h h2)
  | .vBool _, .vInt _ => isFalse (fun h => Val.noConfusion h)
  | .vBool _, .vStr _ => isFalse (fun h => Val.noConfusion h)
  | .vBool _, .vList _ => isFalse (fun h => Val.noConfusion h)
  | .vBool _, .vDict _ => isFalse (fun h => Val.noConfusion h)
  | .vInt _, .vNull => isFalse (fun h => Val.noConfusion h)
  | .vInt _, .vBool _ => isFalse (fun h => Val.noConfusion h)
  | .vInt a, .vInt b =>
    if h : a = b then isTrue (by rw [h])
    else isFalse (by intro hc; injection hc with h2; exact h h2)
  | .vInt _, .vStr _ => isFalse (fun h => Val.noConfusion h)
  | .vInt _, .vList _ => isFalse (fun h => Val.noConfusion h)
  | .vInt _, .vDict _ => isFalse (fun h => Val.noConfusion h)
  | .vStr _, .vNull => isFalse (fun h => Val.noConfusion h)
  | .vStr _, .vBool _ => isFalse (fun h => Val.noConfusion h)
  | .vStr _, .vInt _ => isFalse (fun h => Val.noConfusion h)
  | .vStr a, .vStr b =>
    if h : a = b then isTrue (by rw [h])
    else isFalse (by intro hc; injection hc with h2; exact h h2)
  | .vStr _, .vList _ => isFalse (fun h => Val.noConfusion h)
  | .vStr _, .vDict _ => isFalse (fun h => Val.noConfusion h)
  | .vList _, .vNull => isFalse (fun h => Val.noConfusion h)
  | .vList _, .vBool _ => isFalse (fun h => Val.noConfusion h)
  | .vList _, .vInt _ => isFalse (fun h => Val.noConfusion h)
  | .vList _, .vStr _ => isFalse (fun h => Val.noConfusion h)
  | .vList as, .vList bs =>
    match valDecEqList as bs with
    | isTrue h => isTrue (by rw [h])
    | isFalse h => isFalse (by intro hc; injection hc with h2; exact h h2)
  | .vList _, .vDict _ => isFalse (fun h => Val.noConfusion h)
  | .vDict _, .vNull => isFalse (fun h => Val.noConfusion h)
  | .vDict _, .vBool _ => isFalse (fun h => Val.noConfusion h)
  | .vDict _, .vInt _ => isFalse (fun h => Val.noConfusion h)
  | .vDict _, .vStr _ => isFalse (fun h => Val.noConfusion h)
  | .vDict _, .vList _ => isFalse (fun h => Val.noConfusion h)
  | .vDict as, .vDict bs =>
    match valDecEqKV as bs with
    | isTrue h => isTrue (by rw [h])
    | isFalse h => isFalse (by intro hc; injection hc with h2; exact h h2)

def valDecEqList : (as bs : List Val) → Decidable (as = bs)
  | [], [] => isTrue rfl
  | [], _ :: _ => isFalse (fun h => List.noConfusion h)
  | _ :: _, [] => isFalse (fun h => List.noConfusion h)
  | a :: as, b :: bs =>
    match valDecEq a b with
    | isFalse h1 => isFalse (by intro hc; injection hc with x y; exact h1 x)
    | isTrue h1 =>
      match valDecEqList as bs with
      | isTrue h2 => isTrue (by rw [h1, h2])
      | isFalse h2 => isFalse (by intro hc; injection hc with x y; exact h2 y)

def valDecEqKV : (as bs : List (String × Val)) → Decidable (as = bs)
  | [], [] => isTrue rfl
  | [], _ :: _ => isFalse (fun h => List.noConfusion h)
  | _ :: _, [] => isFalse (fun h => List.noConfusion h)
  | (k1, v1) :: as, (k2, v2) :: bs =>
    match String.decEq k1 k2 with
    | isFalse h1 => isFalse (by
        intro hc; injection hc with hp ht; injection hp with hk hv; exact h1 hk)
    | isTrue h1 =>
      match valDecEq v1 v2 with
      | isFalse h2 => isFalse (by
          intro hc; injection hc with hp ht; injection hp with hk hv; exact h2 hv)
      | isTrue h2 =>
        match valDecEqKV as bs with
        | isTrue h3 => isTrue (by rw [h1, h2, h3])
        | isFalse h3 => isFalse (by intro hc; injection hc with hp ht; exact h3 ht)

end

instance : DecidableEq Val := valDecEq

instance {ε α : Type} [DecidableEq ε] [DecidableEq α] : DecidableEq (Except ε α)
  | .error a, .error b =>
    if h : a = b then isTrue (by rw [h])
    else isFalse (by intro hc; injection hc with h2; exact h h2)
  | .error _, .ok _ => isFalse (fun h => Except.noConfusion h)
  | .ok _, .error _ => isFalse (fun h => Except.noConfusion h)
  | .ok a, .ok b =>
    if h : a = b then isTrue (by rw [h])
    else isFalse (by intro hc; injection hc with h2; exact h h2)

/-- Python `payload.get(key, default)` on a value known to be a dict. -/
def dGet (kvs : List (String × Val)) (k : String) (d : Val) : Val :=
  (kvs.lookup k).getD d

theorem dGet_of_absent (kvs : List (String × Val)) (k : String) (d : Val)
    (h : kvs.lookup k = none) : dGet kvs k d = d := by
  rw [dGet, h]
  rfl

/-! ### Result formatter (src/gigo_retrieval/src/strategies/base.py,
`BaseQdrantRetriever._format_results`)

A raw store point carries a score, an id and a payload dict.  The formatter
builds the fixed record of convenience fields; when `full_page_metadata` is
present it calls `.get` on it, which raises `AttributeError` when that value
is not itself a dict. -/

structure RawPoint where
  score : Val
  pid : Val
  payload : List (String × Val)
deriving DecidableEq, Repr

def formatPoint (pt : RawPoint) : Except String (List (String × Val)) :=
  let payload := pt.payload
  let base : List (String × Val) :=
    [("score", pt.score),
     ("id", pt.pid),
     ("payload", Val.vDict payload),
     ("text", dGet payload "embedding_text" (Val.vStr "")),
     ("page_number", dGet payload "page_number" Val.vNull),
     ("document_title", dGet payload "document_title" Val.vNull),
     ("document_id", dGet payload "document_id" Val.vNull),
     ("section_title", dGet payload "section_title" Val.vNull),
     ("subsection_title", dGet payload "subsection_title" Val.vNull),
     ("manufacturer", dGet payload "manufacturer" Val.vNull),
     ("models_covered", dGet payload "models_covered" (Val.vList [])),
     ("entities", dGet payload "entities" (Val.vList [])),
     ("keywords", dGet payload "keywords" (Val.vList [])),
     ("warnings", dGet payload "warnings" (Val.vList [])),
     ("has_tables", dGet payload "has_tables" (Val.vBool false)),
     ("has_figures", dGet payload "has_figures" (Val.vBool false)),
     ("table_count", dGet payload "table_count" (Val.vInt 0)),
     ("figure_count", dGet payload "figure_count" (Val.vInt 0))]
  match payload.lookup "full_page_metadata" with
  | none => .ok base
  | some (Val.vDict fm) => .ok (base ++
      [("page_visual_description", dGet fm "page_visual_description" Val.vNull),
       ("content_elements", dGet fm "content_elements" (Val.vList [])),
       ("text_content", dGet fm "text_content" Val.vNull),
       ("text_file", dGet fm "text_file" Val.vNull)])
  | some _ => .error "AttributeError: no attribute get"

def formatResults : List RawPoint → Except String (List (List (String × Val)))
  | [] => .ok []
  | pt :: pts => do
    let r ← formatPoint pt
    let rs ← formatResults pts
    .ok (r :: rs)

/-- The overridden formatter of `FusionybridRetriever._format_results`
(src/gigo_retrieval/src/strategies/fusion.py): only id, score and payload. -/
def fusionFormatPoint (pt : RawPoint) : List (String × Val) :=
  [("id", pt.pid), ("score", pt.score), ("payload", Val.vDict pt.payload)]

def fusionFormatResults (pts : List RawPoint) : List (List (String × Val)) :=
  pts.map fusionFormatPoint

/-- `full_page_metadata`, when present in a payload, is itself a dict. -/
def fpmOk (payload : List (String × Val)) : Bool :=
  match payload.lookup "full_page_metadata" with
  | none => true
  | some (Val.vDict _) => true
  | some _ => false

/-- What the formatter guarantees for one formatted record. -/
def formattedFieldSpec (pt : RawPoint) (r : List (String × Val)) : Prop :=
  r.lookup "score" = some pt.score ∧
  r.lookup "id" = some pt.pid ∧
  r.lookup "payload" = some (Val.vDict pt.payload) ∧
  r.lookup "text" = some (dGet pt.payload "embedding_text" (Val.vStr "")) ∧
  r.lookup "page_number" = some (dGet pt.payload "page_number" Val.vNull) ∧
  r.lookup "document_title" = some (dGet pt.payload "document_title" Val.vNull) ∧
  r.lookup "document_id" = some (dGet pt.payload "document_id" Val.vNull) ∧
  r.lookup "section_title" = some (dGet pt.payload "section_title" Val.vNull) ∧
  r.lookup "subsection_title" = some (dGet pt.payload "subsection_title" Val.vNull) ∧
  r.lookup "manufacturer" = some (dGet pt.payload "manufacturer" Val.vNull) ∧
  r.lookup "models_covered" = some (dGet pt.payload "models_covered" (Val.vList [])) ∧
  r.lookup "entities" = some (dGet pt.payload "entities" (Val.vList [])) ∧
  r.lookup "keywords" = some (dGet pt.payload "keywords" (Val.vList [])) ∧
  r.lookup "warnings" = some (dGet pt.payload "warnings" (Val.vList [])) ∧
  r.lookup "has_tables" = some (dGet pt.payload "has_tables" (Val.vBool false)) ∧
  r.lookup "has_figures" = some (dGet pt.payload "has_figures" (Val.vBool false)) ∧
  r.lookup "table_count" = some (dGet pt.payload "table_count" (Val.vInt 0)) ∧
  r.lookup "figure_count" = some (dGet pt.payload "figure_count" (Val.vInt 0))

theorem formatPoint_ok_of_fpmOk (pt : RawPoint) (h : fpmOk pt.payload = true) :
    ∃ r, formatPoint pt = Except.ok r := by
  rw [fpmOk] at h
  rw [formatPoint]
  split
  · exact ⟨_, rfl⟩
  · exact ⟨_, rfl⟩
  next v h1 h2 =>
    rw [h2] at h
    cases v <;> simp at h h1

theorem formatPoint_spec (pt : RawPoint) (r : List (String × Val))
    (h : formatPoint pt = Except.ok r) : formattedFieldSpec pt r := by
  rw [formatPoint] at h
  split at h
  · injection h with h2
    subst h2
    exact ⟨rfl, rfl, rfl, rfl, rfl, rfl, rfl, rfl, rfl, rfl, rfl, rfl, rfl, rfl, rfl, rfl,
      rfl, rfl⟩
  · injection h with h2
    subst h2
    exact ⟨rfl, rfl, rfl, rfl, rfl, rfl, rfl, rfl, rfl, rfl, rfl, rfl, rfl, rfl, rfl, rfl,
      rfl, rfl⟩
  · exact Except.noConfusion h

theorem formatResults_spec (pts : List RawPoint) (out : List (List (String × Val)))
    (h : formatResults pts = Except.ok out) :
    out.length = pts.length ∧ List.Forall₂ formattedFieldSpec pts out := by
  induction pts generalizing out with
  | nil =>
    rw [formatResults] at h
    injection h with h2
    subst h2
    exact ⟨rfl, List.Forall₂.nil⟩
  | cons pt pts ih =>
    rw [formatResults] at h
    cases hp : formatPoint pt with
    | error e => rw [hp] at h; exact Except.noConfusion h
    | ok r =>
      rw [hp] at h
      cases hr : formatResults pts with
      | error e => rw [hr] at h; exact Except.noConfusion h
      | ok rs =>
        rw [hr] at h
        injection h with h2
        subst h2
        obtain ⟨hl, hf⟩ := ih rs hr
        exact ⟨by simp [hl], List.Forall₂.cons (formatPoint_spec pt r hp) hf⟩

/-- C1 (amended): for every list of raw points whose payloads are dicts in
which `full_page_metadata`, when present, is itself a dict, the formatter
returns one record per point without raising, and every documented output
field is present, holding `payload.get(field_key, default)` — so an absent
key yields the default: empty string for text, empty list for
models_covered/entities/keywords/warnings, false for has_tables/has_figures,
zero for table_count/figure_count, and Python None (null) for page_number,
document_title, document_id, section_title, subsection_title and
manufacturer. -/
theorem formatter_total_and_defaults (pts : List RawPoint) :
    ((∀ pt ∈ pts, fpmOk pt.payload = true) → ∃ out, formatResults pts = Except.ok out) ∧
    (∀ out, formatResults pts = Except.ok out →
      out.length = pts.length ∧ List.Forall₂ formattedFieldSpec pts out) ∧
    (∀ (payload : List (String × Val)) (k : String) (d : Val),
      payload.lookup k = none → dGet payload k d = d) := by
  refine ⟨?_, fun out h => formatResults_spec pts out h, fun p k d h => dGet_of_absent p k d h⟩
  intro hall
  induction pts with
  | nil => exact ⟨[], rfl⟩
  | cons pt pts ih =>
    obtain ⟨r, hr⟩ := formatPoint_ok_of_fpmOk pt (hall pt (List.mem_cons_self _ _))
    obtain ⟨out, hout⟩ := ih (fun q hq => hall q (List.mem_cons_of_mem _ hq))
    refine ⟨r :: out, ?_⟩
    rw [formatResults, hr, hout]
    rfl

/-- Witness for C1 at a concrete point: a payload carrying only a page
number formats successfully. -/
theorem formatter_total_and_defaults_witness :
    ∃ out,
      formatResults [⟨Val.vInt 0, Val.vInt 7, [("page_number", Val.vInt 3)]⟩] =
        Except.ok out :=
  (formatter_total_and_defaults
      [⟨Val.vInt 0, Val.vInt 7, [("page_number", Val.vInt 3)]⟩]).1
    (by decide)

/-- Observation helper: the lookup of one key in the formatted record of one
point (`none` when formatting raised). -/
def lookupFmt (pt : RawPoint) (k : String) : Option (Option Val) :=
  match formatPoint pt with
  | .ok r => some (r.lookup k)
  | .error _ => none

/-- C1 counterexample: (a) a payload whose `full_page_metadata` is the
string "x" makes the formatter raise `AttributeError`, so the formatter is
not total on arbitrary string-keyed dict payloads; (b) on the empty payload
the output field `page_number` is present but holds null (Python None),
which is none of the documented defaults empty string / empty list / false /
zero. -/
theorem formatter_claim_counterexample :
    formatPoint ⟨Val.vInt 0, Val.vInt 1, [("full_page_metadata", Val.vStr "x")]⟩ =
      Except.error "AttributeError: no attribute get" ∧
    lookupFmt ⟨Val.vInt 0, Val.vInt 1, []⟩ "page_number" = some (some Val.vNull) ∧
    Val.vNull ≠ Val.vStr "" ∧ Val.vNull ≠ Val.vList [] ∧
    Val.vNull ≠ Val.vBool false ∧ Val.vNull ≠ Val.vInt 0 :=
  ⟨rfl, rfl, by decide, by decide, by decide, by decide⟩

/-- C6 counterexample: on the same single raw point (empty payload), the
base formatter and the fusion override produce different records: the base
record has 18 fields, the fusion record 3, and the base record has a "text"
field the fusion record lacks.  Output shaping is not bit-for-bit identical
across strategy variants. -/
theorem fusion_format_differs_counterexample :
    (match formatResults [⟨Val.vInt 0, Val.vInt 1, []⟩] with
      | Except.ok rs => some (rs.map List.length)
      | Except.error _ => none) = some [18] ∧
    (fusionFormatResults [⟨Val.vInt 0, Val.vInt 1, []⟩]).map List.length = [3] ∧
    lookupFmt ⟨Val.vInt 0, Val.vInt 1, []⟩ "text" = some (some (Val.vStr "")) ∧
    List.lookup "text" (fusionFormatPoint ⟨Val.vInt 0, Val.vInt 1, []⟩) = none ∧
    (18 : Nat) ≠ 3 :=
  ⟨rfl, rfl, rfl, rfl, by decide⟩

/-- C6 (amended): the ColBERT, Hybrid and Matryoshka variants all inherit
the single base formatter, so their output shaping is identical; the Fusion
variant overrides it with a reduced record that agrees with the base record
on id, score and payload but drops every convenience field (e.g. "text"). -/
theorem fusion_format_common_core (pt : RawPoint) (r : List (String × Val))
    (h : formatPoint pt = Except.ok r) :
    r.lookup "id" = (fusionFormatPoint pt).lookup "id" ∧
    r.lookup "score" = (fusionFormatPoint pt).lookup "score" ∧
    r.lookup "payload" = (fusionFormatPoint pt).lookup "payload" ∧
    (fusionFormatPoint pt).lookup "text" = none ∧
    (r.lookup "text").isSome = true ∧
    fusionFormatResults [pt] = [fusionFormatPoint pt] := by
  obtain ⟨hs, hi, hp, ht, -⟩ := formatPoint_spec pt r h
  refine ⟨?_, ?_, ?_, rfl, ?_, rfl⟩
  · rw [hi]; rfl
  · rw [hs]; rfl
  · rw [hp]; rfl
  · rw [ht]; rfl

/-- Witness for C6's amended theorem at a concrete point. -/
theorem fusion_format_common_core_witness :
    (match formatPoint ⟨Val.vInt 2, Val.vInt 9, []⟩ with
      | Except.ok r => r.lookup "id" = (fusionFormatPoint ⟨Val.vInt 2, Val.vInt 9, []⟩).lookup "id"
      | Except.error _ => False) := by
  have h := fusion_format_common_core ⟨Val.vInt 2, Val.vInt 9, []⟩
    (match formatPoint ⟨Val.vInt 2, Val.vInt 9, []⟩ with
      | Except.ok r => r
      | Except.error _ => []) rfl
  exact h.1

/-! ### Python-semantics primitives for the extractors

`.get` exists only on dicts (otherwise `AttributeError`); `for` iterates
lists, strings (per character) and dicts (per key), otherwise `TypeError`;
pydantic model construction validates field types (`ValidationError`);
`if identifier` uses Python truthiness. -/

def vGet : Val → String → Val → Except String Val
  | Val.vDict kvs, k, d => .ok (dGet kvs k d)
  | _, _, _ => .error "AttributeError: no attribute get"

def vIter : Val → Except String (List Val)
  | Val.vList xs => .ok xs
  | Val.vStr s => .ok (s.data.map fun c => Val.vStr (String.mk [c]))
  | Val.vDict kvs => .ok (kvs.map fun kv => Val.vStr kv.1)
  | _ => .error "TypeError: not iterable"

def truthy : Val → Bool
  | Val.vNull => false
  | Val.vBool b => b
  | Val.vInt n => n != 0
  | Val.vStr s => s != ""
  | Val.vList xs => !xs.isEmpty
  | Val.vDict kvs => !kvs.isEmpty

/-- `ContentElementsExtractor._is_valid_id`: Python
`identifier and identifier != "None"` used as an `if` condition. -/
def isValidId (v : Val) : Bool := truthy v && decide (v ≠ Val.vStr "None")

def pydStr : Val → Except String String
  | Val.vStr s => .ok s
  | _ => .error "ValidationError: not a string"

def pydOptInt : Val → Except String (Option Int)
  | Val.vNull => .ok none
  | Val.vInt n => .ok (some n)
  | Val.vStr s =>
    match s.toInt? with
    | some n => .ok (some n)
    | none => .error "ValidationError: not an integer"
  | _ => .error "ValidationError: not an integer"

def mkTableReference (sq : String) (idv pagev : Val) : Except String TableReference := do
  let eid ← pydStr idv
  let p ← pydOptInt pagev
  .ok { sub_question := sq, element_id := eid, page_number := p }

def mkFigureReference (sq : String) (idv pagev : Val) : Except String FigureReference := do
  let lb ← pydStr idv
  let p ← pydOptInt pagev
  .ok { sub_question := sq, label := lb, page_number := p }

/-! ### The five extractors
(src/gigo_retrieval/src/references/extractors/) -/

/-- Loop body of `ContentElementsExtractor.extract`. -/
def ceLoop (result : Val) (sq : String) :
    List Val → Except String (List TableReference × List FigureReference)
  | [] => .ok ([], [])
  | e :: es => do
    let ty ← vGet e "type" Val.vNull
    if ty = Val.vStr "table" then
      let idv ← vGet e "element_id" Val.vNull
      if isValidId idv then
        let t ← mkTableReference sq idv (← vGet result "page_number" Val.vNull)
        let (ts, fs) ← ceLoop result sq es
        .ok (t :: ts, fs)
      else
        ceLoop result sq es
    else if ty = Val.vStr "figure" then
      let idv ← vGet e "figure_id" Val.vNull
      if isValidId idv then
        let f ← mkFigureReference sq idv (← vGet result "page_number" Val.vNull)
        let (ts, fs) ← ceLoop result sq es
        .ok (ts, f :: fs)
      else
        ceLoop result sq es
    else
      ceLoop result sq es

def contentElementsExtract (result : Val) (sq : String) :
    Except String (List TableReference × List FigureReference) := do
  let ce ← vGet result "content_elements" (Val.vList [])
  let es ← vIter ce
  ceLoop result sq es

/-- Shared loop of `FlattenedTablesExtractor.extract` and
`TableMetadataExtractor.extract`: both scan a list of dicts for `table_id`. -/
def tableIdLoop (result : Val) (sq : String) :
    List Val → Except String (List TableReference)
  | [] => .ok []
  | t :: ts => do
    let idv ← vGet t "table_id" Val.vNull
    if isValidId idv then
      let tr ← mkTableReference sq idv (← vGet result "page_number" Val.vNull)
      let rest ← tableIdLoop result sq ts
      .ok (tr :: rest)
    else
      tableIdLoop result sq ts

def flattenedTablesExtract (result : Val) (sq : String) :
    Except String (List TableReference × List FigureReference) := do
  let ft ← vGet result "flattened_tables" (Val.vList [])
  let ts ← vIter ft
  let tables ← tableIdLoop result sq ts
  .ok (tables, [])

def tableMetadataExtract (result : Val) (sq : String) :
    Except String (List TableReference × List FigureReference) := do
  let tm ← vGet result "table_metadata" (Val.vList [])
  let ts ← vIter tm
  let tables ← tableIdLoop result sq ts
  .ok (tables, [])

/-- Loop body of `ContentSummaryExtractor.extract`: the scanned items are the
figure identifiers themselves. -/
def csLoop (result : Val) (sq : String) :
    List Val → Except String (List FigureReference)
  | [] => .ok []
  | f :: fs => do
    if isValidId f then
      let fr ← mkFigureReference sq f (← vGet result "page_number" Val.vNull)
      let rest ← csLoop result sq fs
      .ok (fr :: rest)
    else
      csLoop result sq fs

def contentSummaryExtract (result : Val) (sq : String) :
    Except String (List TableReference × List FigureReference) := do
  let cs ← vGet result "content_summary" (Val.vDict [])
  let sfig ← vGet cs "figures" (Val.vList [])
  let items ← vIter sfig
  let figs ← csLoop result sq items
  .ok ([], figs)

/-- Inner loop of `WithinPageRelationsExtractor.extract` over
`related_figures`. -/
def wprFigLoop (result : Val) (sq : String) :
    List Val → Except String (List FigureReference)
  | [] => .ok []
  | f :: fs => do
    let lv ← vGet f "label" Val.vNull
    if isValidId lv then
      let fr ← mkFigureReference sq lv (← vGet result "page_number" Val.vNull)
      let rest ← wprFigLoop result sq fs
      .ok (fr :: rest)
    else
      wprFigLoop result sq fs

/-- Outer loop of `WithinPageRelationsExtractor.extract` over
`content_elements`. -/
def wprLoop (result : Val) (sq : String) :
    List Val → Except String (List FigureReference)
  | [] => .ok []
  | e :: es => do
    let wpr ← vGet e "within_page_relations" (Val.vDict [])
    let rf ← vGet wpr "related_figures" (Val.vList [])
    let items ← vIter rf
    let figs ← wprFigLoop result sq items
    let more ← wprLoop result sq es
    .ok (figs ++ more)

def withinPageRelationsExtract (result : Val) (sq : String) :
    Except String (List TableReference × List FigureReference) := do
  let ce ← vGet result "content_elements" (Val.vList [])
  let es ← vIter ce
  let figs ← wprLoop result sq es
  .ok ([], figs)

/-! ### File correlation
(src/gigo_retrieval/src/references/extractor.py,
`correlate_references_with_files`).  The filesystem is an oracle
`fsys : String → Bool` telling which paths exist.  Note the guards are
Python truthiness tests (`if table.page_number and table.element_id`), so a
page number of 0 or an empty identifier skips correlation. -/

def scratch_default : String := "scratch/service_manual_long"

def pageTruthy : Option Int → Bool
  | none => false
  | some n => n != 0

def correlateTable (fsys : String → Bool) (scratch : String)
    (t : TableReference) : TableReference :=
  if pageTruthy t.page_number && t.element_id != "" then
    let pageDir := scratch ++ "/page_" ++ pageStr t.page_number
    let pngPath := pageDir ++ "/tables/" ++ t.element_id ++ ".png"
    let htmlPath := pageDir ++ "/tables/" ++ t.element_id ++ ".html"
    { t with
      png_file := if fsys pngPath then some pngPath else t.png_file,
      html_file := if fsys htmlPath then some htmlPath else t.html_file }
  else t

def correlateFigure (fsys : String → Bool) (scratch : String)
    (f : FigureReference) : FigureReference :=
  if pageTruthy f.page_number && f.label != "" then
    let pageDir := scratch ++ "/page_" ++ pageStr f.page_number
    let path1 := pageDir ++ "/images/" ++ f.label ++ ".png"
    let path2 := pageDir ++ "/images/image-" ++ pageStr f.page_number ++ "-"
        ++ ((f.label.splitOn "-").getLastD "") ++ ".png"
    if fsys path1 then { f with png_file := some path1 }
    else if fsys path2 then { f with png_file := some path2 }
    else f
  else f

def correlate_references_with_files (fsys : String → Bool) (scratch : String)
    (refs : References) : References :=
  { tables := refs.tables.map (correlateTable fsys scratch),
    figures := refs.figures.map (correlateFigure fsys scratch) }

/-! ### The extraction pipeline
(src/gigo_retrieval/src/references/extractor.py,
`extract_tables_and_figures_references`). -/

def applyExtractors (result : Val) (sq : String) :
    Except String (List TableReference × List FigureReference) := do
  let (t1, f1) ← contentElementsExtract result sq
  let (t2, f2) ← flattenedTablesExtract result sq
  let (t3, f3) ← tableMetadataExtract result sq
  let (t4, f4) ← contentSummaryExtract result sq
  let (t5, f5) ← withinPageRelationsExtract result sq
  .ok (t1 ++ t2 ++ t3 ++ t4 ++ t5, f1 ++ f2 ++ f3 ++ f4 ++ f5)

def resultsLoop (sq : String) :
    List Val → Except String (List TableReference × List FigureReference)
  | [] => .ok ([], [])
  | r :: rs => do
    let (t1, f1) ← applyExtractors r sq
    let (t2, f2) ← resultsLoop sq rs
    .ok (t1 ++ t2, f1 ++ f2)

def subQuestionsLoop :
    List (String × List Val) → Except String (List TableReference × List FigureReference)
  | [] => .ok ([], [])
  | (sq, rs) :: rest => do
    let (t1, f1) ← resultsLoop sq rs
    let (t2, f2) ← subQuestionsLoop rest
    .ok (t1 ++ t2, f1 ++ f2)

def optIntVal : Option Int → Val
  | none => Val.vNull
  | some n => Val.vInt n

def optStrVal : Option String → Val
  | none => Val.vNull
  | some s => Val.vStr s

def tableModelDump (t : TableReference) : List (String × Val) :=
  [("sub_question", Val.vStr t.sub_question),
   ("element_id", Val.vStr t.element_id),
   ("page_number", optIntVal t.page_number),
   ("png_file", optStrVal t.png_file),
   ("html_file", optStrVal t.html_file)]

def figureModelDump (f : FigureReference) : List (String × Val) :=
  [("sub_question", Val.vStr f.sub_question),
   ("label", Val.vStr f.label),
   ("page_number", optIntVal f.page_number),
   ("png_file", optStrVal f.png_file)]

def extract_tables_and_figures_references (fsys : String → Bool)
    (relevantPoints : List (String × List Val)) :
    Except String (List (List (String × Val)) × List (List (String × Val))) := do
  let (ts, fs) ← subQuestionsLoop relevantPoints
  let refs := References.mk ts fs
  let refs := correlate_references_with_files fsys scratch_default refs
  let refs := deduplicate_references refs
  .ok (refs.tables.map tableModelDump, refs.figures.map figureModelDump)

/-! ### C4 infrastructure: the identifier values each extractor scans -/

@[simp] theorem ex_bind_ok {ε α β : Type} (a : α) (k : α → Except ε β) :
    (Except.ok a >>= k) = k a := rfl

@[simp] theorem ex_bind_error {ε α β : Type} (e : ε) (k : α → Except ε β) :
    ((Except.error e : Except ε α) >>= k) = Except.error e := rfl

theorem vGet_ok {e : Val} {k : String} {d v : Val} (h : vGet e k d = Except.ok v) :
    ∃ kvs, e = Val.vDict kvs ∧ v = dGet kvs k d := by
  cases e with
  | vDict kvs =>
    rw [show vGet (Val.vDict kvs) k d = Except.ok (dGet kvs k d) from rfl] at h
    injection h with h2
    exact ⟨kvs, rfl, h2.symm⟩
  | vNull => simp [vGet] at h
  | vBool b => simp [vGet] at h
  | vInt n => simp [vGet] at h
  | vStr s => simp [vGet] at h
  | vList xs => simp [vGet] at h

theorem pydStr_ok {v : Val} {s : String} (h : pydStr v = Except.ok s) :
    v = Val.vStr s := by
  cases v with
  | vStr t =>
    rw [show pydStr (Val.vStr t) = Except.ok t from rfl] at h
    injection h with h2
    rw [h2]
  | vNull => simp [pydStr] at h
  | vBool b => simp [pydStr] at h
  | vInt n => simp [pydStr] at h
  | vList xs => simp [pydStr] at h
  | vDict kvs => simp [pydStr] at h

theorem mkTableReference_ok {sq : String} {idv pagev : Val} {t : TableReference}
    (h : mkTableReference sq idv pagev = Except.ok t) :
    idv = Val.vStr t.element_id ∧ t.sub_question = sq := by
  rw [mkTableReference] at h
  cases h1 : pydStr idv with
  | error e => rw [h1] at h; simp at h
  | ok s =>
    rw [h1] at h
    simp only [ex_bind_ok] at h
    cases h2 : pydOptInt pagev with
    | error e => rw [h2] at h; simp at h
    | ok p =>
      rw [h2] at h
      simp only [ex_bind_ok] at h
      injection h with h3
      rw [← h3]
      exact ⟨pydStr_ok h1, rfl⟩

theorem mkFigureReference_ok {sq : String} {idv pagev : Val} {f : FigureReference}
    (h : mkFigureReference sq idv pagev = Except.ok f) :
    idv = Val.vStr f.label ∧ f.sub_question = sq := by
  rw [mkFigureReference] at h
  cases h1 : pydStr idv with
  | error e => rw [h1] at h; simp at h
  | ok s =>
    rw [h1] at h
    simp only [ex_bind_ok] at h
    cases h2 : pydOptInt pagev with
    | error e => rw [h2] at h; simp at h
    | ok p =>
      rw [h2] at h
      simp only [ex_bind_ok] at h
      injection h with h3
      rw [← h3]
      exact ⟨pydStr_ok h1, rfl⟩

/-- The values Python iteration would traverse (total model of `vIter`). -/
def iterCands : Val → List Val
  | Val.vList xs => xs
  | Val.vStr s => s.data.map fun c => Val.vStr (String.mk [c])
  | Val.vDict kvs => kvs.map fun kv => Val.vStr kv.1
  | _ => []

theorem vIter_ok {v : Val} {xs : List Val} (h : vIter v = Except.ok xs) :
    iterCands v = xs := by
  cases v with
  | vList ys =>
    rw [show vIter (Val.vList ys) = Except.ok ys from rfl] at h
    injection h
  | vStr s =>
    rw [show vIter (Val.vStr s) =
        Except.ok (s.data.map fun c => Val.vStr (String.mk [c])) from rfl] at h
    injection h
  | vDict kvs =>
    rw [show vIter (Val.vDict kvs) =
        Except.ok (kvs.map fun kv => Val.vStr kv.1) from rfl] at h
    injection h
  | vNull => simp [vIter] at h
  | vBool b => simp [vIter] at h
  | vInt n => simp [vIter] at h

/-- Table identifiers scanned by ContentElements: `element_id` of each
dict element whose `type` is "table". -/
def ceElemTableCands (es : List Val) : List Val :=
  es.filterMap fun e =>
    match e with
    | Val.vDict ekvs =>
      if dGet ekvs "type" Val.vNull = Val.vStr "table"
      then some (dGet ekvs "element_id" Val.vNull) else none
    | _ => none

/-- Figure identifiers scanned by ContentElements: `figure_id` of each
dict element whose `type` is "figure". -/
def ceElemFigCands (es : List Val) : List Val :=
  es.filterMap fun e =>
    match e with
    | Val.vDict ekvs =>
      if dGet ekvs "type" Val.vNull = Val.vStr "figure"
      then some (dGet ekvs "figure_id" Val.vNull) else none
    | _ => none


theorem isValidId_vStr (s : String) : isValidId (Val.vStr s) = ((s != "") && !(s == "None")) := by
  rw [isValidId]
  have h1 : truthy (Val.vStr s) = (s != "") := rfl
  rw [h1]
  by_cases h : s = "None" <;> simp [h]

theorem valid_ids_of_filter_eq {l : List Val} {ids : List String}
    (h : l.filter isValidId = ids.map Val.vStr) :
    ∀ s ∈ ids, s ≠ "" ∧ s ≠ "None" := by
  intro s hs
  have hm : Val.vStr s ∈ l.filter isValidId := by
    rw [h]
    exact List.mem_map_of_mem _ hs
  have hv := List.of_mem_filter hm
  rw [isValidId_vStr] at hv
  simp only [Bool.and_eq_true, bne_iff_ne, ne_eq, Bool.not_eq_true', beq_eq_false_iff_ne] at hv
  exact hv

theorem ceElemTableCands_cons_dict (ekvs : List (String × Val)) (es : List Val) :
    ceElemTableCands (Val.vDict ekvs :: es) =
      (if dGet ekvs "type" Val.vNull = Val.vStr "table"
       then [dGet ekvs "element_id" Val.vNull] else []) ++ ceElemTableCands es := by
  rw [ceElemTableCands, List.filterMap_cons]
  by_cases h : dGet ekvs "type" Val.vNull = Val.vStr "table"
  · rw [if_pos h]
    have : (match Val.vDict ekvs with
      | Val.vDict ekvs =>
        if dGet ekvs "type" Val.vNull = Val.vStr "table"
        then some (dGet ekvs "element_id" Val.vNull) else none
      | _ => (none : Option Val)) = some (dGet ekvs "element_id" Val.vNull) := by
      simp only [if_pos h]
    rw [this]
    rfl
  · rw [if_neg h]
    have : (match Val.vDict ekvs with
      | Val.vDict ekvs =>
        if dGet ekvs "type" Val.vNull = Val.vStr "table"
        then some (dGet ekvs "element_id" Val.vNull) else none
      | _ => (none : Option Val)) = none := by
      simp only [if_neg h]
    rw [this]
    rfl

theorem ceElemFigCands_cons_dict (ekvs : List (String × Val)) (es : List Val) :
    ceElemFigCands (Val.vDict ekvs :: es) =
      (if dGet ekvs "type" Val.vNull = Val.vStr "figure"
       then [dGet ekvs "figure_id" Val.vNull] else []) ++ ceElemFigCands es := by
  rw [ceElemFigCands, List.filterMap_cons]
  by_cases h : dGet ekvs "type" Val.vNull = Val.vStr "figure"
  · rw [if_pos h]
    have : (match Val.vDict ekvs with
      | Val.vDict ekvs =>
        if dGet ekvs "type" Val.vNull = Val.vStr "figure"
        then some (dGet ekvs "figure_id" Val.vNull) else none
      | _ => (none : Option Val)) = some (dGet ekvs "figure_id" Val.vNull) := by
      simp only [if_pos h]
    rw [this]
    rfl
  · rw [if_neg h]
    have : (match Val.vDict ekvs with
      | Val.vDict ekvs =>
        if dGet ekvs "type" Val.vNull = Val.vStr "figure"
        then some (dGet ekvs "figure_id" Val.vNull) else none
      | _ => (none : Option Val)) = none := by
      simp only [if_neg h]
    rw [this]
    rfl

theorem ceLoop_spec (result : Val) (sq : String) :
    ∀ (es : List Val) (ts : List TableReference) (fs : List FigureReference),
      ceLoop result sq es = Except.ok (ts, fs) →
      (ceElemTableCands es).filter isValidId = ts.map (fun t => Val.vStr t.element_id) ∧
      (ceElemFigCands es).filter isValidId = fs.map (fun f => Val.vStr f.label) := by
  intro es
  induction es with
  | nil =>
    intro ts fs h
    rw [ceLoop] at h
    injection h with h2
    cases h2
    exact ⟨rfl, rfl⟩
  | cons e es ih =>
    intro ts fs h
    rw [ceLoop] at h
    cases h1 : vGet e "type" Val.vNull with
    | error msg => rw [h1] at h; simp at h
    | ok ty =>
      rw [h1, ex_bind_ok] at h
      obtain ⟨ekvs, he, hty⟩ := vGet_ok h1
      subst he
      subst hty
      by_cases ht : dGet ekvs "type" Val.vNull = Val.vStr "table"
      · rw [if_pos ht] at h
        rw [show vGet (Val.vDict ekvs) "element_id" Val.vNull =
            Except.ok (dGet ekvs "element_id" Val.vNull) from rfl, ex_bind_ok] at h
        by_cases hv : isValidId (dGet ekvs "element_id" Val.vNull) = true
        · rw [if_pos hv] at h
          cases h3 : vGet result "page_number" Val.vNull with
          | error msg => rw [h3] at h; simp at h
          | ok pv =>
            rw [h3, ex_bind_ok] at h
            cases h4 : mkTableReference sq (dGet ekvs "element_id" Val.vNull) pv with
            | error msg => rw [h4] at h; simp at h
            | ok t =>
              rw [h4, ex_bind_ok] at h
              cases h5 : ceLoop result sq es with
              | error msg => rw [h5] at h; simp at h
              | ok pr =>
                rw [h5, ex_bind_ok] at h
                obtain ⟨ts', fs'⟩ := pr
                injection h with h6
                cases h6
                obtain ⟨hc1, hc2⟩ := ih _ _ h5
                obtain ⟨hid, -⟩ := mkTableReference_ok h4
                constructor
                · rw [ceElemTableCands_cons_dict, if_pos ht, List.filter_append,
                      List.filter_cons, hv]
                  rw [hc1, hid]
                  rfl
                · have hnf : ¬ dGet ekvs "type" Val.vNull = Val.vStr "figure" := by
                    rw [ht]; decide
                  rw [ceElemFigCands_cons_dict, if_neg hnf]
                  simpa using hc2
        · rw [if_neg hv] at h
          obtain ⟨hc1, hc2⟩ := ih ts fs h
          have hvf : isValidId (dGet ekvs "element_id" Val.vNull) = false := by
            revert hv; cases isValidId (dGet ekvs "element_id" Val.vNull) <;> simp
          constructor
          · rw [ceElemTableCands_cons_dict, if_pos ht, List.filter_append,
                List.filter_cons, hvf]
            simpa using hc1
          · have hnf : ¬ dGet ekvs "type" Val.vNull = Val.vStr "figure" := by
              rw [ht]; decide
            rw [ceElemFigCands_cons_dict, if_neg hnf]
            simpa using hc2
      · rw [if_neg ht] at h
        by_cases hf : dGet ekvs "type" Val.vNull = Val.vStr "figure"
        · rw [if_pos hf] at h
          rw [show vGet (Val.vDict ekvs) "figure_id" Val.vNull =
              Except.ok (dGet ekvs "figure_id" Val.vNull) from rfl, ex_bind_ok] at h
          by_cases hv : isValidId (dGet ekvs "figure_id" Val.vNull) = true
          · rw [if_pos hv] at h
            cases h3 : vGet result "page_number" Val.vNull with
            | error msg => rw [h3] at h; simp at h
            | ok pv =>
              rw [h3, ex_bind_ok] at h
              cases h4 : mkFigureReference sq (dGet ekvs "figure_id" Val.vNull) pv with
              | error msg => rw [h4] at h; simp at h
              | ok f =>
                rw [h4, ex_bind_ok] at h
                cases h5 : ceLoop result sq es with
                | error msg => rw [h5] at h; simp at h
                | ok pr =>
                  rw [h5, ex_bind_ok] at h
                  obtain ⟨ts', fs'⟩ := pr
                  injection h with h6
                  cases h6
                  obtain ⟨hc1, hc2⟩ := ih _ _ h5
                  obtain ⟨hid, -⟩ := mkFigureReference_ok h4
                  constructor
                  · rw [ceElemTableCands_cons_dict, if_neg ht]
                    simpa using hc1
                  · rw [ceElemFigCands_cons_dict, if_pos hf, List.filter_append,
                        List.filter_cons, hv]
                    rw [hc2, hid]
                    rfl
          · rw [if_neg hv] at h
            obtain ⟨hc1, hc2⟩ := ih ts fs h
            have hvf : isValidId (dGet ekvs "figure_id" Val.vNull) = false := by
              revert hv; cases isValidId (dGet ekvs "figure_id" Val.vNull) <;> simp
            constructor
            · rw [ceElemTableCands_cons_dict, if_neg ht]
              simpa using hc1
            · rw [ceElemFigCands_cons_dict, if_pos hf, List.filter_append,
                  List.filter_cons, hvf]
              simpa using hc2
        · rw [if_neg hf] at h
          obtain ⟨hc1, hc2⟩ := ih ts fs h
          constructor
          · rw [ceElemTableCands_cons_dict, if_neg ht]
            simpa using hc1
          · rw [ceElemFigCands_cons_dict, if_neg hf]
            simpa using hc2

/-- Table identifiers scanned from a list of dict entries under `table_id`
(FlattenedTables and TableMetadata extractors). -/
def tableIdCands (xs : List Val) : List Val :=
  xs.filterMap fun x =>
    match x with
    | Val.vDict kvs => some (dGet kvs "table_id" Val.vNull)
    | _ => none

theorem tableIdCands_cons_dict (kvs : List (String × Val)) (xs : List Val) :
    tableIdCands (Val.vDict kvs :: xs) =
      dGet kvs "table_id" Val.vNull :: tableIdCands xs := by
  rw [tableIdCands, List.filterMap_cons]
  rfl

theorem tableIdLoop_spec (result : Val) (sq : String) :
    ∀ (xs : List Val) (trs : List TableReference),
      tableIdLoop result sq xs = Except.ok trs →
      (tableIdCands xs).filter isValidId = trs.map (fun t => Val.vStr t.element_id) := by
  intro xs
  induction xs with
  | nil =>
    intro trs h
    rw [tableIdLoop] at h
    injection h with h2
    cases h2
    rfl
  | cons x xs ih =>
    intro trs h
    rw [tableIdLoop] at h
    cases h1 : vGet x "table_id" Val.vNull with
    | error msg => rw [h1] at h; simp at h
    | ok idv =>
      rw [h1, ex_bind_ok] at h
      obtain ⟨kvs, hx, hidv⟩ := vGet_ok h1
      subst hx
      subst hidv
      by_cases hv : isValidId (dGet kvs "table_id" Val.vNull) = true
      · rw [if_pos hv] at h
        cases h3 : vGet result "page_number" Val.vNull with
        | error msg => rw [h3] at h; simp at h
        | ok pv =>
          rw [h3, ex_bind_ok] at h
          cases h4 : mkTableReference sq (dGet kvs "table_id" Val.vNull) pv with
          | error msg => rw [h4] at h; simp at h
          | ok t =>
            rw [h4, ex_bind_ok] at h
            cases h5 : tableIdLoop result sq xs with
            | error msg => rw [h5] at h; simp at h
            | ok rest =>
              rw [h5, ex_bind_ok] at h
              injection h with h6
              cases h6
              obtain ⟨hid, -⟩ := mkTableReference_ok h4
              rw [tableIdCands_cons_dict, List.filter_cons, hv, ih _ h5, hid]
              rfl
      · rw [if_neg hv] at h
        have hvf : isValidId (dGet kvs "table_id" Val.vNull) = false := by
          revert hv; cases isValidId (dGet kvs "table_id" Val.vNull) <;> simp
        rw [tableIdCands_cons_dict, List.filter_cons, hvf]
        exact ih _ h

theorem csLoop_spec (result : Val) (sq : String) :
    ∀ (items : List Val) (frs : List FigureReference),
      csLoop result sq items = Except.ok frs →
      items.filter isValidId = frs.map (fun f => Val.vStr f.label) := by
  intro items
  induction items with
  | nil =>
    intro frs h
    rw [csLoop] at h
    injection h with h2
    cases h2
    rfl
  | cons x xs ih =>
    intro frs h
    rw [csLoop] at h
    by_cases hv : isValidId x = true
    · rw [if_pos hv] at h
      cases h3 : vGet result "page_number" Val.vNull with
      | error msg => rw [h3] at h; simp at h
      | ok pv =>
        rw [h3, ex_bind_ok] at h
        cases h4 : mkFigureReference sq x pv with
        | error msg => rw [h4] at h; simp at h
        | ok f =>
          rw [h4, ex_bind_ok] at h
          cases h5 : csLoop result sq xs with
          | error msg => rw [h5] at h; simp at h
          | ok rest =>
            rw [h5, ex_bind_ok] at h
            injection h with h6
            cases h6
            obtain ⟨hid, -⟩ := mkFigureReference_ok h4
            rw [List.filter_cons, hv, ih _ h5, hid]
            rfl
    · rw [if_neg hv] at h
      have hvf : isValidId x = false := by
        revert hv; cases isValidId x <;> simp
      rw [List.filter_cons, hvf]
      exact ih _ h

/-- Figure labels scanned from a list of dict entries under `label`
(inner WithinPageRelations loop). -/
def wprFigItemCands (xs : List Val) : List Val :=
  xs.filterMap fun x =>
    match x with
    | Val.vDict kvs => some (dGet kvs "label" Val.vNull)
    | _ => none

theorem wprFigItemCands_cons_dict (kvs : List (String × Val)) (xs : List Val) :
    wprFigItemCands (Val.vDict kvs :: xs) =
      dGet kvs "label" Val.vNull :: wprFigItemCands xs := by
  rw [wprFigItemCands, List.filterMap_cons]
  rfl

theorem wprFigLoop_spec (result : Val) (sq : String) :
    ∀ (xs : List Val) (frs : List FigureReference),
      wprFigLoop result sq xs = Except.ok frs →
      (wprFigItemCands xs).filter isValidId = frs.map (fun f => Val.vStr f.label) := by
  intro xs
  induction xs with
  | nil =>
    intro frs h
    rw [wprFigLoop] at h
    injection h with h2
    cases h2
    rfl
  | cons x xs ih =>
    intro frs h
    rw [wprFigLoop] at h
    cases h1 : vGet x "label" Val.vNull with
    | error msg => rw [h1] at h; simp at h
    | ok lv =>
      rw [h1, ex_bind_ok] at h
      obtain ⟨kvs, hx, hlv⟩ := vGet_ok h1
      subst hx
      subst hlv
      by_cases hv : isValidId (dGet kvs "label" Val.vNull) = true
      · rw [if_pos hv] at h
        cases h3 : vGet result "page_number" Val.vNull with
        | error msg => rw [h3] at h; simp at h
        | ok pv =>
          rw [h3, ex_bind_ok] at h
          cases h4 : mkFigureReference sq (dGet kvs "label" Val.vNull) pv with
          | error msg => rw [h4] at h; simp at h
          | ok f =>
            rw [h4, ex_bind_ok] at h
            cases h5 : wprFigLoop result sq xs with
            | error msg => rw [h5] at h; simp at h
            | ok rest =>
              rw [h5, ex_bind_ok] at h
              injection h with h6
              cases h6
              obtain ⟨hid, -⟩ := mkFigureReference_ok h4
              rw [wprFigItemCands_cons_dict, List.filter_cons, hv, ih _ h5, hid]
              rfl
      · rw [if_neg hv] at h
        have hvf : isValidId (dGet kvs "label" Val.vNull) = false := by
          revert hv; cases isValidId (dGet kvs "label" Val.vNull) <;> simp
        rw [wprFigItemCands_cons_dict, List.filter_cons, hvf]
        exact ih _ h

/-- Figure labels scanned by WithinPageRelations from a `content_elements`
list: `within_page_relations.related_figures[*].label` of each element. -/
def wprElemCands : List Val → List Val
  | [] => []
  | e :: es =>
    (match e with
     | Val.vDict ekvs =>
       match dGet ekvs "within_page_relations" (Val.vDict []) with
       | Val.vDict wkvs =>
         wprFigItemCands (iterCands (dGet wkvs "related_figures" (Val.vList [])))
       | _ => []
     | _ => []) ++ wprElemCands es

theorem wprLoop_spec (result : Val) (sq : String) :
    ∀ (es : List Val) (frs : List FigureReference),
      wprLoop result sq es = Except.ok frs →
      (wprElemCands es).filter isValidId = frs.map (fun f => Val.vStr f.label) := by
  intro es
  induction es with
  | nil =>
    intro frs h
    rw [wprLoop] at h
    injection h with h2
    cases h2
    rfl
  | cons e es ih =>
    intro frs h
    rw [wprLoop] at h
    cases h1 : vGet e "within_page_relations" (Val.vDict []) with
    | error msg => rw [h1] at h; simp at h
    | ok wpr =>
      rw [h1, ex_bind_ok] at h
      obtain ⟨ekvs, he, hwpr⟩ := vGet_ok h1
      subst he
      cases h2 : vGet wpr "related_figures" (Val.vList []) with
      | error msg => rw [h2] at h; simp at h
      | ok rf =>
        rw [h2, ex_bind_ok] at h
        obtain ⟨wkvs, hw, hrf⟩ := vGet_ok h2
        cases h3 : vIter rf with
        | error msg => rw [h3] at h; simp at h
        | ok items =>
          rw [h3, ex_bind_ok] at h
          cases h4 : wprFigLoop result sq items with
          | error msg => rw [h4] at h; simp at h
          | ok figs =>
            rw [h4, ex_bind_ok] at h
            cases h5 : wprLoop result sq es with
            | error msg => rw [h5] at h; simp at h
            | ok more =>
              rw [h5, ex_bind_ok] at h
              injection h with h6
              cases h6
              have hcands : wprElemCands (Val.vDict ekvs :: es) =
                  wprFigItemCands (iterCands (dGet wkvs "related_figures" (Val.vList []))) ++
                    wprElemCands es := by
                rw [wprElemCands]
                rw [show dGet ekvs "within_page_relations" (Val.vDict []) = Val.vDict wkvs from
                  hwpr ▸ hw]
              have hit : iterCands (dGet wkvs "related_figures" (Val.vList [])) = items := by
                rw [← hrf]
                exact vIter_ok h3
              rw [hcands, List.filter_append, List.map_append, hit,
                  wprFigLoop_spec result sq items figs h4, ih _ h5]

/-! ### Per-extractor scanned-candidate sets and the validity filter -/

def ceTableCands (result : Val) : List Val :=
  match result with
  | Val.vDict kvs => ceElemTableCands (iterCands (dGet kvs "content_elements" (Val.vList [])))
  | _ => []

def ceFigCands (result : Val) : List Val :=
  match result with
  | Val.vDict kvs => ceElemFigCands (iterCands (dGet kvs "content_elements" (Val.vList [])))
  | _ => []

def ftTableCands (result : Val) : List Val :=
  match result with
  | Val.vDict kvs => tableIdCands (iterCands (dGet kvs "flattened_tables" (Val.vList [])))
  | _ => []

def tmTableCands (result : Val) : List Val :=
  match result with
  | Val.vDict kvs => tableIdCands (iterCands (dGet kvs "table_metadata" (Val.vList [])))
  | _ => []

def csFigCands (result : Val) : List Val :=
  match result with
  | Val.vDict kvs =>
    match dGet kvs "content_summary" (Val.vDict []) with
    | Val.vDict cs => iterCands (dGet cs "figures" (Val.vList []))
    | _ => []
  | _ => []

def wprFigCands (result : Val) : List Val :=
  match result with
  | Val.vDict kvs => wprElemCands (iterCands (dGet kvs "content_elements" (Val.vList [])))
  | _ => []

theorem valid_tables_of_eq {cands : List Val} {ts : List TableReference}
    (h : cands.filter isValidId = ts.map (fun t => Val.vStr t.element_id)) :
    ∀ t ∈ ts, t.element_id ≠ "" ∧ t.element_id ≠ "None" := by
  intro t ht
  have h2 : cands.filter isValidId = (ts.map (fun t => t.element_id)).map Val.vStr := by
    rw [h, List.map_map]
    rfl
  exact valid_ids_of_filter_eq h2 t.element_id (List.mem_map_of_mem _ ht)

theorem valid_figures_of_eq {cands : List Val} {fs : List FigureReference}
    (h : cands.filter isValidId = fs.map (fun f => Val.vStr f.label)) :
    ∀ f ∈ fs, f.label ≠ "" ∧ f.label ≠ "None" := by
  intro f hf
  have h2 : cands.filter isValidId = (fs.map (fun f => f.label)).map Val.vStr := by
    rw [h, List.map_map]
    rfl
  exact valid_ids_of_filter_eq h2 f.label (List.mem_map_of_mem _ hf)

theorem contentElementsExtract_spec (result : Val) (sq : String)
    (ts : List TableReference) (fs : List FigureReference)
    (h : contentElementsExtract result sq = Except.ok (ts, fs)) :
    (ceTableCands result).filter isValidId = ts.map (fun t => Val.vStr t.element_id) ∧
    (ceFigCands result).filter isValidId = fs.map (fun f => Val.vStr f.label) := by
  rw [contentElementsExtract] at h
  cases h1 : vGet result "content_elements" (Val.vList []) with
  | error msg => rw [h1] at h; simp at h
  | ok ce =>
    rw [h1, ex_bind_ok] at h
    obtain ⟨kvs, hres, hce⟩ := vGet_ok h1
    subst hres
    cases h2 : vIter ce with
    | error msg => rw [h2] at h; simp at h
    | ok es =>
      rw [h2, ex_bind_ok] at h
      have hit : iterCands (dGet kvs "content_elements" (Val.vList [])) = es := by
        rw [← hce]
        exact vIter_ok h2
      obtain ⟨hc1, hc2⟩ := ceLoop_spec _ sq es ts fs h
      constructor
      · show (ceElemTableCands (iterCands (dGet kvs "content_elements" (Val.vList [])))).filter
            isValidId = ts.map (fun t => Val.vStr t.element_id)
        rw [hit]
        exact hc1
      · show (ceElemFigCands (iterCands (dGet kvs "content_elements" (Val.vList [])))).filter
            isValidId = fs.map (fun f => Val.vStr f.label)
        rw [hit]
        exact hc2

theorem flattenedTablesExtract_spec (result : Val) (sq : String)
    (ts : List TableReference) (fs : List FigureReference)
    (h : flattenedTablesExtract result sq = Except.ok (ts, fs)) :
    (ftTableCands result).filter isValidId = ts.map (fun t => Val.vStr t.element_id) ∧
    fs = [] := by
  rw [flattenedTablesExtract] at h
  cases h1 : vGet result "flattened_tables" (Val.vList []) with
  | error msg => rw [h1] at h; simp at h
  | ok ft =>
    rw [h1, ex_bind_ok] at h
    obtain ⟨kvs, hres, hft⟩ := vGet_ok h1
    subst hres
    cases h2 : vIter ft with
    | error msg => rw [h2] at h; simp at h
    | ok xs =>
      rw [h2, ex_bind_ok] at h
      cases h3 : tableIdLoop (Val.vDict kvs) sq xs with
      | error msg => rw [h3] at h; simp at h
      | ok tables =>
        rw [h3, ex_bind_ok] at h
        injection h with h4
        rw [Prod.mk.injEq] at h4
        obtain ⟨h5, h6⟩ := h4
        have hit : iterCands (dGet kvs "flattened_tables" (Val.vList [])) = xs := by
          rw [← hft]
          exact vIter_ok h2
        refine ⟨?_, h6.symm⟩
        show (tableIdCands (iterCands (dGet kvs "flattened_tables" (Val.vList [])))).filter
            isValidId = ts.map (fun t => Val.vStr t.element_id)
        rw [hit, ← h5]
        exact tableIdLoop_spec _ sq xs tables h3

theorem tableMetadataExtract_spec (result : Val) (sq : String)
    (ts : List TableReference) (fs : List FigureReference)
    (h : tableMetadataExtract result sq = Except.ok (ts, fs)) :
    (tmTableCands result).filter isValidId = ts.map (fun t => Val.vStr t.element_id) ∧
    fs = [] := by
  rw [tableMetadataExtract] at h
  cases h1 : vGet result "table_metadata" (Val.vList []) with
  | error msg => rw [h1] at h; simp at h
  | ok tm =>
    rw [h1, ex_bind_ok] at h
    obtain ⟨kvs, hres, htm⟩ := vGet_ok h1
    subst hres
    cases h2 : vIter tm with
    | error msg => rw [h2] at h; simp at h
    | ok xs =>
      rw [h2, ex_bind_ok] at h
      cases h3 : tableIdLoop (Val.vDict kvs) sq xs with
      | error msg => rw [h3] at h; simp at h
      | ok tables =>
        rw [h3, ex_bind_ok] at h
        injection h with h4
        rw [Prod.mk.injEq] at h4
        obtain ⟨h5, h6⟩ := h4
        have hit : iterCands (dGet kvs "table_metadata" (Val.vList [])) = xs := by
          rw [← htm]
          exact vIter_ok h2
        refine ⟨?_, h6.symm⟩
        show (tableIdCands (iterCands (dGet kvs "table_metadata" (Val.vList [])))).filter
            isValidId = ts.map (fun t => Val.vStr t.element_id)
        rw [hit, ← h5]
        exact tableIdLoop_spec _ sq xs tables h3

theorem contentSummaryExtract_spec (result : Val) (sq : String)
    (ts : List TableReference) (fs : List FigureReference)
    (h : contentSummaryExtract result sq = Except.ok (ts, fs)) :
    ts = [] ∧
    (csFigCands result).filter isValidId = fs.map (fun f => Val.vStr f.label) := by
  rw [contentSummaryExtract] at h
  cases h1 : vGet result "content_summary" (Val.vDict []) with
  | error msg => rw [h1] at h; simp at h
  | ok cs =>
    rw [h1, ex_bind_ok] at h
    obtain ⟨kvs, hres, hcs⟩ := vGet_ok h1
    subst hres
    cases h2 : vGet cs "figures" (Val.vList []) with
    | error msg => rw [h2] at h; simp at h
    | ok sfig =>
      rw [h2, ex_bind_ok] at h
      obtain ⟨cskvs, hcs2, hsfig⟩ := vGet_ok h2
      cases h3 : vIter sfig with
      | error msg => rw [h3] at h; simp at h
      | ok items =>
        rw [h3, ex_bind_ok] at h
        cases h4 : csLoop (Val.vDict kvs) sq items with
        | error msg => rw [h4] at h; simp at h
        | ok figs =>
          rw [h4, ex_bind_ok] at h
          injection h with h5
          rw [Prod.mk.injEq] at h5
          obtain ⟨h6, h7⟩ := h5
          refine ⟨h6.symm, ?_⟩
          have hcands : csFigCands (Val.vDict kvs) =
              iterCands (dGet cskvs "figures" (Val.vList [])) := by
            show (match dGet kvs "content_summary" (Val.vDict []) with
              | Val.vDict cs => iterCands (dGet cs "figures" (Val.vList []))
              | _ => []) = iterCands (dGet cskvs "figures" (Val.vList []))
            rw [show dGet kvs "content_summary" (Val.vDict []) = Val.vDict cskvs from
              hcs ▸ hcs2]
          rw [hcands]
          have hit : iterCands (dGet cskvs "figures" (Val.vList [])) = items := by
            rw [← hsfig]
            exact vIter_ok h3
          rw [hit, ← h7]
          exact csLoop_spec _ sq items figs h4

theorem withinPageRelationsExtract_spec (result : Val) (sq : String)
    (ts : List TableReference) (fs : List FigureReference)
    (h : withinPageRelationsExtract result sq = Except.ok (ts, fs)) :
    ts = [] ∧
    (wprFigCands result).filter isValidId = fs.map (fun f => Val.vStr f.label) := by
  rw [withinPageRelationsExtract] at h
  cases h1 : vGet result "content_elements" (Val.vList []) with
  | error msg => rw [h1] at h; simp at h
  | ok ce =>
    rw [h1, ex_bind_ok] at h
    obtain ⟨kvs, hres, hce⟩ := vGet_ok h1
    subst hres
    cases h2 : vIter ce with
    | error msg => rw [h2] at h; simp at h
    | ok es =>
      rw [h2, ex_bind_ok] at h
      cases h3 : wprLoop (Val.vDict kvs) sq es with
      | error msg => rw [h3] at h; simp at h
      | ok figs =>
        rw [h3, ex_bind_ok] at h
        injection h with h4
        rw [Prod.mk.injEq] at h4
        obtain ⟨h5, h6⟩ := h4
        refine ⟨h5.symm, ?_⟩
        have hit : iterCands (dGet kvs "content_elements" (Val.vList [])) = es := by
          rw [← hce]
          exact vIter_ok h2
        show (wprElemCands (iterCands (dGet kvs "content_elements" (Val.vList [])))).filter
            isValidId = fs.map (fun f => Val.vStr f.label)
        rw [hit, ← h6]
        exact wprLoop_spec _ sq es figs h3

/-- C4: in each of the five extractors, a scanned candidate identifier
yields a reference iff it passes the shared validity filter
(`_is_valid_id`): whenever an extractor returns successfully, the valid
candidates are exactly the identifiers of the returned references (in
order), and every returned identifier is a non-empty string different from
the literal "None". -/
theorem extractor_validity (result : Val) (sq : String) :
    (∀ ts fs, contentElementsExtract result sq = Except.ok (ts, fs) →
      (ceTableCands result).filter isValidId = ts.map (fun t => Val.vStr t.element_id) ∧
      (ceFigCands result).filter isValidId = fs.map (fun f => Val.vStr f.label) ∧
      (∀ t ∈ ts, t.element_id ≠ "" ∧ t.element_id ≠ "None") ∧
      (∀ f ∈ fs, f.label ≠ "" ∧ f.label ≠ "None")) ∧
    (∀ ts fs, flattenedTablesExtract result sq = Except.ok (ts, fs) →
      (ftTableCands result).filter isValidId = ts.map (fun t => Val.vStr t.element_id) ∧
      fs = [] ∧
      (∀ t ∈ ts, t.element_id ≠ "" ∧ t.element_id ≠ "None")) ∧
    (∀ ts fs, tableMetadataExtract result sq = Except.ok (ts, fs) →
      (tmTableCands result).filter isValidId = ts.map (fun t => Val.vStr t.element_id) ∧
      fs = [] ∧
      (∀ t ∈ ts, t.element_id ≠ "" ∧ t.element_id ≠ "None")) ∧
    (∀ ts fs, contentSummaryExtract result sq = Except.ok (ts, fs) →
      ts = [] ∧
      (csFigCands result).filter isValidId = fs.map (fun f => Val.vStr f.label) ∧
      (∀ f ∈ fs, f.label ≠ "" ∧ f.label ≠ "None")) ∧
    (∀ ts fs, withinPageRelationsExtract result sq = Except.ok (ts, fs) →
      ts = [] ∧
      (wprFigCands result).filter isValidId = fs.map (fun f => Val.vStr f.label) ∧
      (∀ f ∈ fs, f.label ≠ "" ∧ f.label ≠ "None")) := by
  refine ⟨?_, ?_, ?_, ?_, ?_⟩
  · intro ts fs h
    obtain ⟨h1, h2⟩ := contentElementsExtract_spec result sq ts fs h
    exact ⟨h1, h2, valid_tables_of_eq h1, valid_figures_of_eq h2⟩
  · intro ts fs h
    obtain ⟨h1, h2⟩ := flattenedTablesExtract_spec result sq ts fs h
    exact ⟨h1, h2, valid_tables_of_eq h1⟩
  · intro ts fs h
    obtain ⟨h1, h2⟩ := tableMetadataExtract_spec result sq ts fs h
    exact ⟨h1, h2, valid_tables_of_eq h1⟩
  · intro ts fs h
    obtain ⟨h1, h2⟩ := contentSummaryExtract_spec result sq ts fs h
    exact ⟨h1, h2, valid_figures_of_eq h2⟩
  · intro ts fs h
    obtain ⟨h1, h2⟩ := withinPageRelationsExtract_spec result sq ts fs h
    exact ⟨h1, h2, valid_figures_of_eq h2⟩

/-- Witness for C4 at a concrete result: one table element with id "t-1" on
page 5; identifiers "" and "None" in the same scan are filtered out. -/
theorem extractor_validity_witness :
    (ceTableCands (Val.vDict
        [("content_elements", Val.vList
          [Val.vDict [("type", Val.vStr "table"), ("element_id", Val.vStr "t-1")],
           Val.vDict [("type", Val.vStr "table"), ("element_id", Val.vStr "None")],
           Val.vDict [("type", Val.vStr "table"), ("element_id", Val.vStr "")]]),
         ("page_number", Val.vInt 5)])).filter isValidId =
      ([{ sub_question := "q", element_id := "t-1", page_number := some 5 }] :
        List TableReference).map (fun t => Val.vStr t.element_id) ∧
    (ceFigCands (Val.vDict
        [("content_elements", Val.vList
          [Val.vDict [("type", Val.vStr "table"), ("element_id", Val.vStr "t-1")],
           Val.vDict [("type", Val.vStr "table"), ("element_id", Val.vStr "None")],
           Val.vDict [("type", Val.vStr "table"), ("element_id", Val.vStr "")]]),
         ("page_number", Val.vInt 5)])).filter isValidId =
      ([] : List FigureReference).map (fun f => Val.vStr f.label) ∧
    (∀ t ∈ ([{ sub_question := "q", element_id := "t-1", page_number := some 5 }] :
        List TableReference), t.element_id ≠ "" ∧ t.element_id ≠ "None") ∧
    (∀ f ∈ ([] : List FigureReference), f.label ≠ "" ∧ f.label ≠ "None") :=
  (extractor_validity (Val.vDict
      [("content_elements", Val.vList
        [Val.vDict [("type", Val.vStr "table"), ("element_id", Val.vStr "t-1")],
         Val.vDict [("type", Val.vStr "table"), ("element_id", Val.vStr "None")],
         Val.vDict [("type", Val.vStr "table"), ("element_id", Val.vStr "")]]),
       ("page_number", Val.vInt 5)]) "q").1
    [{ sub_question := "q", element_id := "t-1", page_number := some 5 }] []
    (by decide)


/-! ### C7 infrastructure: inputs on which extraction cannot raise

Missing keys are always tolerated (every `.get` has a default); what makes
the pipeline raise is a malformed entry: a non-dict where a dict is
expected, a non-list container, or a truthy identifier that is not a
string.  `wfResult` is the well-formedness the extractors need. -/

def wfId : Val → Bool
  | Val.vStr _ => true
  | Val.vNull => true
  | _ => false

def wfPageV : Val → Bool
  | Val.vNull => true
  | Val.vInt _ => true
  | _ => false

def wfElem : Val → Bool
  | Val.vDict ekvs =>
    wfId (dGet ekvs "element_id" Val.vNull) &&
    wfId (dGet ekvs "figure_id" Val.vNull) &&
    (match dGet ekvs "within_page_relations" (Val.vDict []) with
     | Val.vDict wkvs =>
       match dGet wkvs "related_figures" (Val.vList []) with
       | Val.vList rfs => rfs.all fun f =>
           match f with
           | Val.vDict fkvs => wfId (dGet fkvs "label" Val.vNull)
           | _ => false
       | _ => false
     | _ => false)
  | _ => false

def wfIdDictList (key : String) : Val → Bool
  | Val.vList xs => xs.all fun x =>
      match x with
      | Val.vDict kvs => wfId (dGet kvs key Val.vNull)
      | _ => false
  | _ => false

def wfResult : Val → Bool
  | Val.vDict kvs =>
    wfPageV (dGet kvs "page_number" Val.vNull) &&
    (match dGet kvs "content_elements" (Val.vList []) with
     | Val.vList es => es.all wfElem
     | _ => false) &&
    wfIdDictList "table_id" (dGet kvs "flattened_tables" (Val.vList [])) &&
    wfIdDictList "table_id" (dGet kvs "table_metadata" (Val.vList [])) &&
    (match dGet kvs "content_summary" (Val.vDict []) with
     | Val.vDict cs =>
       match dGet cs "figures" (Val.vList []) with
       | Val.vList items => items.all wfId
       | _ => false
     | _ => false)
  | _ => false

def wfRelevantPoints (rp : List (String × List Val)) : Bool :=
  rp.all fun p => p.2.all wfResult

theorem pydOptInt_ok_of_wf {v : Val} (h : wfPageV v = true) :
    ∃ p, pydOptInt v = Except.ok p := by
  cases v with
  | vNull => exact ⟨none, rfl⟩
  | vInt n => exact ⟨some n, rfl⟩
  | vBool b => simp [wfPageV] at h
  | vStr s => simp [wfPageV] at h
  | vList xs => simp [wfPageV] at h
  | vDict kvs => simp [wfPageV] at h

theorem wfId_valid_str {v : Val} (h1 : wfId v = true) (h2 : isValidId v = true) :
    ∃ s, v = Val.vStr s := by
  cases v with
  | vStr s => exact ⟨s, rfl⟩
  | vNull => simp [isValidId, truthy] at h2
  | vBool b => simp [wfId] at h1
  | vInt n => simp [wfId] at h1
  | vList xs => simp [wfId] at h1
  | vDict kvs => simp [wfId] at h1

theorem mkTableReference_ok_of_wf {sq : String} {s : String} {pagev : Val}
    (h : wfPageV pagev = true) :
    ∃ t, mkTableReference sq (Val.vStr s) pagev = Except.ok t := by
  obtain ⟨p, hp⟩ := pydOptInt_ok_of_wf h
  refine ⟨{ sub_question := sq, element_id := s, page_number := p }, ?_⟩
  rw [mkTableReference, show pydStr (Val.vStr s) = Except.ok s from rfl, ex_bind_ok, hp,
      ex_bind_ok]

theorem mkFigureReference_ok_of_wf {sq : String} {s : String} {pagev : Val}
    (h : wfPageV pagev = true) :
    ∃ f, mkFigureReference sq (Val.vStr s) pagev = Except.ok f := by
  obtain ⟨p, hp⟩ := pydOptInt_ok_of_wf h
  refine ⟨{ sub_question := sq, label := s, page_number := p }, ?_⟩
  rw [mkFigureReference, show pydStr (Val.vStr s) = Except.ok s from rfl, ex_bind_ok, hp,
      ex_bind_ok]

theorem ceLoop_ok (kvs : List (String × Val)) (sq : String)
    (hpage : wfPageV (dGet kvs "page_number" Val.vNull) = true) :
    ∀ es : List Val, es.all wfElem = true →
      ∃ out, ceLoop (Val.vDict kvs) sq es = Except.ok out := by
  intro es
  induction es with
  | nil => intro _; exact ⟨([], []), rfl⟩
  | cons e es ih =>
    intro hall
    rw [List.all_cons, Bool.and_eq_true] at hall
    obtain ⟨he, hrest⟩ := hall
    obtain ⟨out, hout⟩ := ih hrest
    obtain ⟨ts, fs⟩ := out
    cases e with
    | vDict ekvs =>
      rw [wfElem, Bool.and_eq_true, Bool.and_eq_true] at he
      obtain ⟨⟨hid1, hid2⟩, -⟩ := he
      rw [ceLoop,
          show vGet (Val.vDict ekvs) "type" Val.vNull =
            Except.ok (dGet ekvs "type" Val.vNull) from rfl, ex_bind_ok]
      by_cases ht : dGet ekvs "type" Val.vNull = Val.vStr "table"
      · rw [if_pos ht,
            show vGet (Val.vDict ekvs) "element_id" Val.vNull =
              Except.ok (dGet ekvs "element_id" Val.vNull) from rfl, ex_bind_ok]
        by_cases hv : isValidId (dGet ekvs "element_id" Val.vNull) = true
        · rw [if_pos hv]
          obtain ⟨s, hs⟩ := wfId_valid_str hid1 hv
          rw [show vGet (Val.vDict kvs) "page_number" Val.vNull =
              Except.ok (dGet kvs "page_number" Val.vNull) from rfl, ex_bind_ok, hs]
          obtain ⟨t, hmk⟩ := @mkTableReference_ok_of_wf sq s _ hpage
          rw [hmk, ex_bind_ok, hout, ex_bind_ok]
          exact ⟨(t :: ts, fs), rfl⟩
        · rw [if_neg hv]
          exact ⟨(ts, fs), hout⟩
      · rw [if_neg ht]
        by_cases hf : dGet ekvs "type" Val.vNull = Val.vStr "figure"
        · rw [if_pos hf,
              show vGet (Val.vDict ekvs) "figure_id" Val.vNull =
                Except.ok (dGet ekvs "figure_id" Val.vNull) from rfl, ex_bind_ok]
          by_cases hv : isValidId (dGet ekvs "figure_id" Val.vNull) = true
          · rw [if_pos hv]
            obtain ⟨s, hs⟩ := wfId_valid_str hid2 hv
            rw [show vGet (Val.vDict kvs) "page_number" Val.vNull =
                Except.ok (dGet kvs "page_number" Val.vNull) from rfl, ex_bind_ok, hs]
            obtain ⟨f, hmk⟩ := @mkFigureReference_ok_of_wf sq s _ hpage
            rw [hmk, ex_bind_ok, hout, ex_bind_ok]
            exact ⟨(ts, f :: fs), rfl⟩
          · rw [if_neg hv]
            exact ⟨(ts, fs), hout⟩
        · rw [if_neg hf]
          exact ⟨(ts, fs), hout⟩
    | vNull => simp [wfElem] at he
    | vBool b => simp [wfElem] at he
    | vInt n => simp [wfElem] at he
    | vStr s => simp [wfElem] at he
    | vList xs => simp [wfElem] at he

theorem contentElementsExtract_ok (kvs : List (String × Val)) (sq : String)
    (h : wfResult (Val.vDict kvs) = true) :
    ∃ out, contentElementsExtract (Val.vDict kvs) sq = Except.ok out := by
  rw [wfResult, Bool.and_eq_true, Bool.and_eq_true, Bool.and_eq_true, Bool.and_eq_true] at h
  obtain ⟨⟨⟨⟨hpage, hce⟩, -⟩, -⟩, -⟩ := h
  rw [contentElementsExtract,
      show vGet (Val.vDict kvs) "content_elements" (Val.vList []) =
        Except.ok (dGet kvs "content_elements" (Val.vList [])) from rfl, ex_bind_ok]
  cases hv : dGet kvs "content_elements" (Val.vList []) with
  | vList es =>
    rw [show vIter (Val.vList es) = Except.ok es from rfl, ex_bind_ok]
    rw [hv] at hce
    exact ceLoop_ok kvs sq hpage es hce
  | vNull => rw [hv] at hce; simp at hce
  | vBool b => rw [hv] at hce; simp at hce
  | vInt n => rw [hv] at hce; simp at hce
  | vStr s => rw [hv] at hce; simp at hce
  | vDict kvs2 => rw [hv] at hce; simp at hce

theorem tableIdLoop_ok (kvs : List (String × Val)) (sq : String)
    (hpage : wfPageV (dGet kvs "page_number" Val.vNull) = true) :
    ∀ xs : List Val,
      (xs.all fun x => match x with
        | Val.vDict kv => wfId (dGet kv "table_id" Val.vNull)
        | _ => false) = true →
      ∃ out, tableIdLoop (Val.vDict kvs) sq xs = Except.ok out := by
  intro xs
  induction xs with
  | nil => intro _; exact ⟨[], rfl⟩
  | cons x xs ih =>
    intro hall
    rw [List.all_cons, Bool.and_eq_true] at hall
    obtain ⟨hx, hrest⟩ := hall
    obtain ⟨out, hout⟩ := ih hrest
    cases x with
    | vDict xkvs =>
      rw [tableIdLoop,
          show vGet (Val.vDict xkvs) "table_id" Val.vNull =
            Except.ok (dGet xkvs "table_id" Val.vNull) from rfl, ex_bind_ok]
      by_cases hv : isValidId (dGet xkvs "table_id" Val.vNull) = true
      · rw [if_pos hv]
        obtain ⟨s, hs⟩ := wfId_valid_str hx hv
        rw [show vGet (Val.vDict kvs) "page_number" Val.vNull =
            Except.ok (dGet kvs "page_number" Val.vNull) from rfl, ex_bind_ok, hs]
        obtain ⟨t, hmk⟩ := @mkTableReference_ok_of_wf sq s _ hpage
        rw [hmk, ex_bind_ok, hout, ex_bind_ok]
        exact ⟨t :: out, rfl⟩
      · rw [if_neg hv]
        exact ⟨out, hout⟩
    | vNull => simp at hx
    | vBool b => simp at hx
    | vInt n => simp at hx
    | vStr s => simp at hx
    | vList ys => simp at hx

theorem flattenedTablesExtract_ok (kvs : List (String × Val)) (sq : String)
    (h : wfResult (Val.vDict kvs) = true) :
    ∃ out, flattenedTablesExtract (Val.vDict kvs) sq = Except.ok out := by
  rw [wfResult, Bool.and_eq_true, Bool.and_eq_true, Bool.and_eq_true, Bool.and_eq_true] at h
  obtain ⟨⟨⟨⟨hpage, -⟩, hft⟩, -⟩, -⟩ := h
  rw [flattenedTablesExtract,
      show vGet (Val.vDict kvs) "flattened_tables" (Val.vList []) =
        Except.ok (dGet kvs "flattened_tables" (Val.vList [])) from rfl, ex_bind_ok]
  cases hv : dGet kvs "flattened_tables" (Val.vList []) with
  | vList xs =>
    rw [show vIter (Val.vList xs) = Except.ok xs from rfl, ex_bind_ok]
    rw [hv, wfIdDictList] at hft
    obtain ⟨out, hout⟩ := tableIdLoop_ok kvs sq hpage xs hft
    rw [hout, ex_bind_ok]
    exact ⟨(out, []), rfl⟩
  | vNull => rw [hv] at hft; simp [wfIdDictList] at hft
  | vBool b => rw [hv] at hft; simp [wfIdDictList] at hft
  | vInt n => rw [hv] at hft; simp [wfIdDictList] at hft
  | vStr s => rw [hv] at hft; simp [wfIdDictList] at hft
  | vDict kvs2 => rw [hv] at hft; simp [wfIdDictList] at hft

theorem tableMetadataExtract_ok (kvs : List (String × Val)) (sq : String)
    (h : wfResult (Val.vDict kvs) = true) :
    ∃ out, tableMetadataExtract (Val.vDict kvs) sq = Except.ok out := by
  rw [wfResult, Bool.and_eq_true, Bool.and_eq_true, Bool.and_eq_true, Bool.and_eq_true] at h
  obtain ⟨⟨⟨⟨hpage, -⟩, -⟩, htm⟩, -⟩ := h
  rw [tableMetadataExtract,
      show vGet (Val.vDict kvs) "table_metadata" (Val.vList []) =
        Except.ok (dGet kvs "table_metadata" (Val.vList [])) from rfl, ex_bind_ok]
  cases hv : dGet kvs "table_metadata" (Val.vList []) with
  | vList xs =>
    rw [show vIter (Val.vList xs) = Except.ok xs from rfl, ex_bind_ok]
    rw [hv, wfIdDictList] at htm
    obtain ⟨out, hout⟩ := tableIdLoop_ok kvs sq hpage xs htm
    rw [hout, ex_bind_ok]
    exact ⟨(out, []), rfl⟩
  | vNull => rw [hv] at htm; simp [wfIdDictList] at htm
  | vBool b => rw [hv] at htm; simp [wfIdDictList] at htm
  | vInt n => rw [hv] at htm; simp [wfIdDictList] at htm
  | vStr s => rw [hv] at htm; simp [wfIdDictList] at htm
  | vDict kvs2 => rw [hv] at htm; simp [wfIdDictList] at htm

theorem csLoop_ok (kvs : List (String × Val)) (sq : String)
    (hpage : wfPageV (dGet kvs "page_number" Val.vNull) = true) :
    ∀ items : List Val, items.all wfId = true →
      ∃ out, csLoop (Val.vDict kvs) sq items = Except.ok out := by
  intro items
  induction items with
  | nil => intro _; exact ⟨[], rfl⟩
  | cons x xs ih =>
    intro hall
    rw [List.all_cons, Bool.and_eq_true] at hall
    obtain ⟨hx, hrest⟩ := hall
    obtain ⟨out, hout⟩ := ih hrest
    rw [csLoop]
    by_cases hv : isValidId x = true
    · rw [if_pos hv]
      obtain ⟨s, hs⟩ := wfId_valid_str hx hv
      rw [show vGet (Val.vDict kvs) "page_number" Val.vNull =
          Except.ok (dGet kvs "page_number" Val.vNull) from rfl, ex_bind_ok, hs]
      obtain ⟨f, hmk⟩ := @mkFigureReference_ok_of_wf sq s _ hpage
      rw [hmk, ex_bind_ok, hout, ex_bind_ok]
      exact ⟨f :: out, rfl⟩
    · rw [if_neg hv]
      exact ⟨out, hout⟩

theorem contentSummaryExtract_ok (kvs : List (String × Val)) (sq : String)
    (h : wfResult (Val.vDict kvs) = true) :
    ∃ out, contentSummaryExtract (Val.vDict kvs) sq = Except.ok out := by
  rw [wfResult, Bool.and_eq_true, Bool.and_eq_true, Bool.and_eq_true, Bool.and_eq_true] at h
  obtain ⟨⟨⟨⟨hpage, -⟩, -⟩, -⟩, hcs⟩ := h
  rw [contentSummaryExtract,
      show vGet (Val.vDict kvs) "content_summary" (Val.vDict []) =
        Except.ok (dGet kvs "content_summary" (Val.vDict [])) from rfl, ex_bind_ok]
  cases hv : dGet kvs "content_summary" (Val.vDict []) with
  | vDict cs =>
    rw [show vGet (Val.vDict cs) "figures" (Val.vList []) =
        Except.ok (dGet cs "figures" (Val.vList [])) from rfl, ex_bind_ok]
    rw [hv] at hcs
    have hcs2 : (match dGet cs "figures" (Val.vList []) with
      | Val.vList items => items.all wfId
      | _ => false) = true := hcs
    cases hv2 : dGet cs "figures" (Val.vList []) with
    | vList items =>
      rw [show vIter (Val.vList items) = Except.ok items from rfl, ex_bind_ok]
      rw [hv2] at hcs2
      have hcs3 : items.all wfId = true := hcs2
      obtain ⟨out, hout⟩ := csLoop_ok kvs sq hpage items hcs3
      rw [hout, ex_bind_ok]
      exact ⟨([], out), rfl⟩
    | vNull => rw [hv2] at hcs2; simp at hcs2
    | vBool b => rw [hv2] at hcs2; simp at hcs2
    | vInt n => rw [hv2] at hcs2; simp at hcs2
    | vStr s => rw [hv2] at hcs2; simp at hcs2
    | vDict kvs2 => rw [hv2] at hcs2; simp at hcs2
  | vNull => rw [hv] at hcs; simp at hcs
  | vBool b => rw [hv] at hcs; simp at hcs
  | vInt n => rw [hv] at hcs; simp at hcs
  | vStr s => rw [hv] at hcs; simp at hcs
  | vList xs => rw [hv] at hcs; simp at hcs

theorem wprFigLoop_ok (kvs : List (String × Val)) (sq : String)
    (hpage : wfPageV (dGet kvs "page_number" Val.vNull) = true) :
    ∀ xs : List Val,
      (xs.all fun f => match f with
        | Val.vDict fkvs => wfId (dGet fkvs "label" Val.vNull)
        | _ => false) = true →
      ∃ out, wprFigLoop (Val.vDict kvs) sq xs = Except.ok out := by
  intro xs
  induction xs with
  | nil => intro _; exact ⟨[], rfl⟩
  | cons x xs ih =>
    intro hall
    rw [List.all_cons, Bool.and_eq_true] at hall
    obtain ⟨hx, hrest⟩ := hall
    obtain ⟨out, hout⟩ := ih hrest
    cases x with
    | vDict xkvs =>
      rw [wprFigLoop,
          show vGet (Val.vDict xkvs) "label" Val.vNull =
            Except.ok (dGet xkvs "label" Val.vNull) from rfl, ex_bind_ok]
      by_cases hv : isValidId (dGet xkvs "label" Val.vNull) = true
      · rw [if_pos hv]
        obtain ⟨s, hs⟩ := wfId_valid_str hx hv
        rw [show vGet (Val.vDict kvs) "page_number" Val.vNull =
            Except.ok (dGet kvs "page_number" Val.vNull) from rfl, ex_bind_ok, hs]
        obtain ⟨f, hmk⟩ := @mkFigureReference_ok_of_wf sq s _ hpage
        rw [hmk, ex_bind_ok, hout, ex_bind_ok]
        exact ⟨f :: out, rfl⟩
      · rw [if_neg hv]
        exact ⟨out, hout⟩
    | vNull => simp at hx
    | vBool b => simp at hx
    | vInt n => simp at hx
    | vStr s => simp at hx
    | vList ys => simp at hx

theorem wprLoop_ok (kvs : List (String × Val)) (sq : String)
    (hpage : wfPageV (dGet kvs "page_number" Val.vNull) = true) :
    ∀ es : List Val, es.all wfElem = true →
      ∃ out, wprLoop (Val.vDict kvs) sq es = Except.ok out := by
  intro es
  induction es with
  | nil => intro _; exact ⟨[], rfl⟩
  | cons e es ih =>
    intro hall
    rw [List.all_cons, Bool.and_eq_true] at hall
    obtain ⟨he, hrest⟩ := hall
    obtain ⟨out, hout⟩ := ih hrest
    cases e with
    | vDict ekvs =>
      rw [wfElem, Bool.and_eq_true, Bool.and_eq_true] at he
      obtain ⟨-, hwpr⟩ := he
      rw [wprLoop,
          show vGet (Val.vDict ekvs) "within_page_relations" (Val.vDict []) =
            Except.ok (dGet ekvs "within_page_relations" (Val.vDict [])) from rfl, ex_bind_ok]
      cases hv : dGet ekvs "within_page_relations" (Val.vDict []) with
      | vDict wkvs =>
        rw [show vGet (Val.vDict wkvs) "related_figures" (Val.vList []) =
            Except.ok (dGet wkvs "related_figures" (Val.vList [])) from rfl, ex_bind_ok]
        rw [hv] at hwpr
        have hwpr2 : (match dGet wkvs "related_figures" (Val.vList []) with
          | Val.vList rfs => rfs.all fun f =>
              match f with
              | Val.vDict fkvs => wfId (dGet fkvs "label" Val.vNull)
              | _ => false
          | _ => false) = true := hwpr
        cases hv2 : dGet wkvs "related_figures" (Val.vList []) with
        | vList rfs =>
          rw [show vIter (Val.vList rfs) = Except.ok rfs from rfl, ex_bind_ok]
          rw [hv2] at hwpr2
          have hwpr3 : (rfs.all fun f =>
              match f with
              | Val.vDict fkvs => wfId (dGet fkvs "label" Val.vNull)
              | _ => false) = true := hwpr2
          obtain ⟨figs, hfigs⟩ := wprFigLoop_ok kvs sq hpage rfs hwpr3
          rw [hfigs, ex_bind_ok, hout, ex_bind_ok]
          exact ⟨figs ++ out, rfl⟩
        | vNull => rw [hv2] at hwpr2; simp at hwpr2
        | vBool b => rw [hv2] at hwpr2; simp at hwpr2
        | vInt n => rw [hv2] at hwpr2; simp at hwpr2
        | vStr s => rw [hv2] at hwpr2; simp at hwpr2
        | vDict kvs2 => rw [hv2] at hwpr2; simp at hwpr2
      | vNull => rw [hv] at hwpr; simp at hwpr
      | vBool b => rw [hv] at hwpr; simp at hwpr
      | vInt n => rw [hv] at hwpr; simp at hwpr
      | vStr s => rw [hv] at hwpr; simp at hwpr
      | vList xs => rw [hv] at hwpr; simp at hwpr
    | vNull => simp [wfElem] at he
    | vBool b => simp [wfElem] at he
    | vInt n => simp [wfElem] at he
    | vStr s => simp [wfElem] at he
    | vList xs => simp [wfElem] at he

theorem withinPageRelationsExtract_ok (kvs : List (String × Val)) (sq : String)
    (h : wfResult (Val.vDict kvs) = true) :
    ∃ out, withinPageRelationsExtract (Val.vDict kvs) sq = Except.ok out := by
  rw [wfResult, Bool.and_eq_true, Bool.and_eq_true, Bool.and_eq_true, Bool.and_eq_true] at h
  obtain ⟨⟨⟨⟨hpage, hce⟩, -⟩, -⟩, -⟩ := h
  rw [withinPageRelationsExtract,
      show vGet (Val.vDict kvs) "content_elements" (Val.vList []) =
        Except.ok (dGet kvs "content_elements" (Val.vList [])) from rfl, ex_bind_ok]
  cases hv : dGet kvs "content_elements" (Val.vList []) with
  | vList es =>
    rw [show vIter (Val.vList es) = Except.ok es from rfl, ex_bind_ok]
    rw [hv] at hce
    obtain ⟨figs, hfigs⟩ := wprLoop_ok kvs sq hpage es hce
    rw [hfigs, ex_bind_ok]
    exact ⟨([], figs), rfl⟩
  | vNull => rw [hv] at hce; simp at hce
  | vBool b => rw [hv] at hce; simp at hce
  | vInt n => rw [hv] at hce; simp at hce
  | vStr s => rw [hv] at hce; simp at hce
  | vDict kvs2 => rw [hv] at hce; simp at hce

theorem applyExtractors_ok (r : Val) (sq : String) (h : wfResult r = true) :
    ∃ out, applyExtractors r sq = Except.ok out := by
  cases r with
  | vDict kvs =>
    obtain ⟨⟨t1, f1⟩, h1⟩ := contentElementsExtract_ok kvs sq h
    obtain ⟨⟨t2, f2⟩, h2⟩ := flattenedTablesExtract_ok kvs sq h
    obtain ⟨⟨t3, f3⟩, h3⟩ := tableMetadataExtract_ok kvs sq h
    obtain ⟨⟨t4, f4⟩, h4⟩ := contentSummaryExtract_ok kvs sq h
    obtain ⟨⟨t5, f5⟩, h5⟩ := withinPageRelationsExtract_ok kvs sq h
    simp only [applyExtractors, h1, h2, h3, h4, h5, ex_bind_ok]
    exact ⟨_, rfl⟩
  | vNull => simp [wfResult] at h
  | vBool b => simp [wfResult] at h
  | vInt n => simp [wfResult] at h
  | vStr s => simp [wfResult] at h
  | vList xs => simp [wfResult] at h

theorem resultsLoop_ok (sq : String) :
    ∀ rs : List Val, rs.all wfResult = true →
      ∃ out, resultsLoop sq rs = Except.ok out := by
  intro rs
  induction rs with
  | nil => intro _; exact ⟨([], []), rfl⟩
  | cons r rs ih =>
    intro hall
    rw [List.all_cons, Bool.and_eq_true] at hall
    obtain ⟨hr, hrest⟩ := hall
    obtain ⟨⟨t1, f1⟩, h1⟩ := applyExtractors_ok r sq hr
    obtain ⟨⟨t2, f2⟩, h2⟩ := ih hrest
    simp only [resultsLoop, h1, h2, ex_bind_ok]
    exact ⟨_, rfl⟩

theorem subQuestionsLoop_ok :
    ∀ rp : List (String × List Val), wfRelevantPoints rp = true →
      ∃ out, subQuestionsLoop rp = Except.ok out := by
  intro rp
  induction rp with
  | nil => intro _; exact ⟨([], []), rfl⟩
  | cons p rp ih =>
    intro hall
    rw [wfRelevantPoints, List.all_cons, Bool.and_eq_true] at hall
    obtain ⟨hp, hrest⟩ := hall
    obtain ⟨q, rs⟩ := p
    obtain ⟨⟨t1, f1⟩, h1⟩ := resultsLoop_ok q rs hp
    obtain ⟨⟨t2, f2⟩, h2⟩ := ih hrest
    simp only [subQuestionsLoop, h1, h2, ex_bind_ok]
    exact ⟨_, rfl⟩

/-- C7 (amended): the extractors tolerate missing keys (every lookup has a
default) and filter out null / "None" identifiers, so the reference
extraction pipeline never raises on inputs whose entries are well-formed in
the sense of `wfResult`; but a malformed entry is not absorbed — it raises
and aborts the whole pipeline (see the counterexample). -/
theorem extraction_pipeline_total_on_wf (fsys : String → Bool)
    (rp : List (String × List Val)) (h : wfRelevantPoints rp = true) :
    ∃ out, extract_tables_and_figures_references fsys rp = Except.ok out := by
  obtain ⟨⟨ts, fs⟩, h1⟩ := subQuestionsLoop_ok rp h
  simp only [extract_tables_and_figures_references, h1, ex_bind_ok]
  exact ⟨_, rfl⟩

/-- Witness for C7 at a concrete well-formed input (the spec's end-to-end
scenario: one table element "table-5-1" on page 5). -/
theorem extraction_pipeline_total_on_wf_witness :
    ∃ out, extract_tables_and_figures_references (fun _ => false)
      [("q", [Val.vDict
        [("content_elements", Val.vList
          [Val.vDict [("type", Val.vStr "table"), ("element_id", Val.vStr "table-5-1")]]),
         ("page_number", Val.vInt 5)]])] = Except.ok out :=
  extraction_pipeline_total_on_wf (fun _ => false)
    [("q", [Val.vDict
      [("content_elements", Val.vList
        [Val.vDict [("type", Val.vStr "table"), ("element_id", Val.vStr "table-5-1")]]),
       ("page_number", Val.vInt 5)]])]
    (by decide)

/-- C7 counterexample: a single malformed entry — `content_elements`
containing the bare string "oops" instead of a dict — makes the whole
pipeline raise (`AttributeError` from `.get` on a non-dict), instead of
being absorbed locally as the claim states. -/
theorem extraction_pipeline_counterexample :
    extract_tables_and_figures_references (fun _ => false)
      [("q", [Val.vDict [("content_elements", Val.vList [Val.vStr "oops"])]])] =
      Except.error "AttributeError: no attribute get" := by
  rfl


/-! ### C8: on-disk correlation paths -/

theorem pageStr_some (p : Int) : pageStr (some p) = Int.repr p := rfl

/-- C8 (amended): for a table reference with a truthy page number (present
and non-zero) and a non-empty element id, correlation probes exactly
`{scratch}/page_{P}/tables/{E}.png` and `{scratch}/page_{P}/tables/{E}.html`
and attaches each independently iff it exists; for a figure reference with
truthy page and non-empty label it probes `{scratch}/page_{P}/images/{L}.png`
then the fallback `{scratch}/page_{P}/images/image-{P}-{suffix}.png` (suffix
= text after the last "-" of L), attaching the first hit; a reference whose
files are absent — or whose guard is falsy (page None or 0, empty id) — is
returned unchanged, never an error. -/
theorem correlate_reference_paths (fsys : String → Bool) (scratch : String) :
    (∀ (t : TableReference) (p : Int), t.page_number = some p → p ≠ 0 →
      t.element_id ≠ "" →
      correlateTable fsys scratch t =
        { t with
          png_file :=
            if fsys (scratch ++ "/page_" ++ Int.repr p ++ "/tables/" ++
                t.element_id ++ ".png")
            then some (scratch ++ "/page_" ++ Int.repr p ++ "/tables/" ++
                t.element_id ++ ".png")
            else t.png_file,
          html_file :=
            if fsys (scratch ++ "/page_" ++ Int.repr p ++ "/tables/" ++
                t.element_id ++ ".html")
            then some (scratch ++ "/page_" ++ Int.repr p ++ "/tables/" ++
                t.element_id ++ ".html")
            else t.html_file }) ∧
    (∀ t : TableReference, (pageTruthy t.page_number && t.element_id != "") = false →
      correlateTable fsys scratch t = t) ∧
    (∀ (f : FigureReference) (p : Int), f.page_number = some p → p ≠ 0 →
      f.label ≠ "" →
      correlateFigure fsys scratch f =
        (if fsys (scratch ++ "/page_" ++ Int.repr p ++ "/images/" ++ f.label ++ ".png")
         then { f with png_file := some (scratch ++ "/page_" ++ Int.repr p ++
            "/images/" ++ f.label ++ ".png") }
         else if fsys (scratch ++ "/page_" ++ Int.repr p ++ "/images/image-" ++
            Int.repr p ++ "-" ++ ((f.label.splitOn "-").getLastD "") ++ ".png")
         then { f with png_file := some (scratch ++ "/page_" ++ Int.repr p ++
            "/images/image-" ++ Int.repr p ++ "-" ++
            ((f.label.splitOn "-").getLastD "") ++ ".png") }
         else f)) ∧
    (∀ f : FigureReference, (pageTruthy f.page_number && f.label != "") = false →
      correlateFigure fsys scratch f = f) := by
  refine ⟨?_, ?_, ?_, ?_⟩
  · intro t p hp hp0 hid
    have hguard : (pageTruthy t.page_number && t.element_id != "") = true := by
      rw [hp]
      simp [pageTruthy, bne_iff_ne, hp0, hid]
    rw [correlateTable, if_pos hguard, hp, pageStr_some]
  · intro t hguard
    rw [correlateTable, if_neg (by rw [hguard]; exact Bool.false_ne_true)]
  · intro f p hp hp0 hlbl
    have hguard : (pageTruthy f.page_number && f.label != "") = true := by
      rw [hp]
      simp [pageTruthy, bne_iff_ne, hp0, hlbl]
    rw [correlateFigure, if_pos hguard, hp, pageStr_some]
  · intro f hguard
    rw [correlateFigure, if_neg (by rw [hguard]; exact Bool.false_ne_true)]

/-- Witness for C8 at a concrete reference: table "t1" on page 5, with only
the PNG on disk: it is attached, the HTML stays None. -/
theorem correlate_reference_paths_witness :
    correlateTable (fun s => s == "scratch/service_manual_long/page_5/tables/t1.png")
        scratch_default
        { sub_question := "q", element_id := "t1", page_number := some 5 } =
      { sub_question := "q", element_id := "t1", page_number := some 5,
        png_file := some "scratch/service_manual_long/page_5/tables/t1.png",
        html_file := none } := by
  have h := (correlate_reference_paths
      (fun s => s == "scratch/service_manual_long/page_5/tables/t1.png")
      scratch_default).1
    { sub_question := "q", element_id := "t1", page_number := some 5 } 5
    rfl (by decide) (by decide)
  rw [h]
  decide

/-- C8 counterexample: a table reference with page number 0 and element id
"t1", whose documented path `page_0/tables/t1.png` does exist on disk, is
left unchanged — correlation never probes it, because the Python guard
`if table.page_number and table.element_id` treats page 0 as falsy.  The
claim as stated (probe whenever both fields are present) is false. -/
theorem correlate_page_zero_counterexample :
    correlate_references_with_files
        (fun s => s == "scratch/service_manual_long/page_0/tables/t1.png")
        scratch_default
        { tables := [{ sub_question := "q", element_id := "t1", page_number := some 0 }],
          figures := [] } =
      { tables := [{ sub_question := "q", element_id := "t1", page_number := some 0 }],
        figures := [] } ∧
    (fun s => s == "scratch/service_manual_long/page_0/tables/t1.png")
      "scratch/service_manual_long/page_0/tables/t1.png" = true := by
  constructor
  · rfl
  · decide


/-! ### C2: the retriever factory
(src/gigo_retrieval/src/strategies/__init__.py).  `SearchType` declares
four members; `create_retriever` dispatches by if/elif and sends anything
not explicitly handled — which includes the declared `fusion` member — to
the `else: raise ValueError("Unknown search type: ...")` branch.  The
`FusionybridRetriever` class exists (fusion.py) but is never constructed
by the factory. -/

inductive SearchType where
  | colbert : SearchType
  | hybrid : SearchType
  | matrioska : SearchType
  | fusion : SearchType
deriving DecidableEq, Repr

/-- Opaque stand-in for an `openai.OpenAI` client instance. -/
def OpenAIClient : Type := Unit

inductive Retriever where
  | colbertRetriever : Retriever
  | hybridRetriever : Retriever
  | matrioskaRetriever : OpenAIClient → Retriever
  | fusionybridRetriever : OpenAIClient → Retriever

inductive FactoryError where
  | unknownSearchType : SearchType → FactoryError
  | openaiClientRequired : FactoryError
deriving DecidableEq, Repr

def create_retriever (search_type : SearchType) (openai_client : Option OpenAIClient) :
    Except FactoryError Retriever :=
  match search_type with
  | SearchType.colbert => .ok Retriever.colbertRetriever
  | SearchType.hybrid => .ok Retriever.hybridRetriever
  | SearchType.matrioska =>
    match openai_client with
    | none => .error FactoryError.openaiClientRequired
    | some c => .ok (Retriever.matrioskaRetriever c)
  | SearchType.fusion => .error (FactoryError.unknownSearchType SearchType.fusion)

/-- C2: the factory handles colbert, hybrid and matrioska (the latter
requiring an OpenAI client), but the declared `fusion` tag falls into the
unknown-search-type error branch even with a client supplied — the fusion
variant is unreachable through the factory, contradicting the closed tag
set {colbert, hybrid, matrioska, fusion} of the spec. -/
theorem create_retriever_fusion_unreachable :
    create_retriever SearchType.colbert none = Except.ok Retriever.colbertRetriever ∧
    create_retriever SearchType.hybrid none = Except.ok Retriever.hybridRetriever ∧
    create_retriever SearchType.matrioska (some ()) =
      Except.ok (Retriever.matrioskaRetriever ()) ∧
    create_retriever SearchType.matrioska none =
      Except.error FactoryError.openaiClientRequired ∧
    create_retriever SearchType.fusion (some ()) =
      Except.error (FactoryError.unknownSearchType SearchType.fusion) ∧
    create_retriever SearchType.fusion none =
      Except.error (FactoryError.unknownSearchType SearchType.fusion) :=
  ⟨rfl, rfl, rfl, rfl, rfl, rfl⟩

/-! ### C9/C10: staged queries, the store model, and the strategies

The store is an oracle: for each named vector field, `ranking` gives the
store's full point ordering by that field (best first), `score` the field
score of a point, `payload` its payload.  A `Plan` is a prefetch subtree
(`models.Prefetch`): a leaf query or a nested rerank; `queryPoints` models
`client.query_points`: merge the prefetch candidates, order them by the
outer field, drop those under the score threshold, truncate to `limit`. -/

inductive VectorField where
  | dense : VectorField
  | sparse : VectorField
  | colbert : VectorField
  | smallEmbedding : VectorField
  | largeEmbedding : VectorField
deriving DecidableEq, Repr

inductive Plan where
  | leaf : VectorField → Nat → Plan
  | nested : List Plan → VectorField → Nat → Plan
deriving Repr

structure Store where
  ranking : VectorField → List Nat
  score : VectorField → Nat → Int
  payload : Nat → List (String × Val)

mutual

def execPlan (st : Store) : Plan → List Nat
  | Plan.leaf f lim => (st.ranking f).take lim
  | Plan.nested ps f lim =>
    ((st.ranking f).filter
      (fun q => (execPlans st ps).flatten.contains q)).take lim

def execPlans (st : Store) : List Plan → List (List Nat)
  | [] => []
  | p :: ps => execPlan st p :: execPlans st ps

end

def thrOk (st : Store) (f : VectorField) (thr : Option Int) (q : Nat) : Bool :=
  match thr with
  | none => true
  | some bound => bound ≤ st.score f q

def queryPoints (st : Store) (prefetch : List Plan) (f : VectorField) (lim : Nat)
    (thr : Option Int) : List Nat :=
  let base := match prefetch with
    | [] => st.ranking f
    | ps => (st.ranking f).filter
        (fun q => (execPlans st ps).flatten.contains q)
  (base.filter (thrOk st f thr)).take lim

def mkPoints (st : Store) (f : VectorField) (ids : List Nat) : List RawPoint :=
  ids.map fun i => ⟨Val.vInt (st.score f i), Val.vInt (Int.ofNat i), st.payload i⟩

/-- Python `prefetch_limit or dflt`: both None and 0 fall back. -/
def effLimit (dflt : Nat) (plim : Option Nat) : Nat :=
  match plim with
  | none => dflt
  | some n => if n = 0 then dflt else n

/-- `ColbertRetriever.retrieve`: single-stage colbert query, forwarding
`score_threshold`. -/
def colbertRetrieve (st : Store) (lim : Nat) (score_threshold : Option Int) :
    Except String (List (List (String × Val))) :=
  formatResults (mkPoints st VectorField.colbert
    (queryPoints st [] VectorField.colbert lim score_threshold))

/-- `HybridRetriever.retrieve`: dense+sparse prefetch branches, colbert
rerank, forwarding `score_threshold`. -/
def hybridRetrieve (st : Store) (lim : Nat) (plim : Option Nat)
    (score_threshold : Option Int) : Except String (List (List (String × Val))) :=
  let pl := effLimit 20 plim
  formatResults (mkPoints st VectorField.colbert
    (queryPoints st [Plan.leaf VectorField.dense pl, Plan.leaf VectorField.sparse pl]
      VectorField.colbert lim score_threshold))

/-- The prefetch `MatrioskaRetriever.retrieve` actually sends: a single
one-level small-embedding prefetch of `prefetch_limit or 50`. -/
def matrioskaPrefetch (plim : Option Nat) : List Plan :=
  [Plan.leaf VectorField.smallEmbedding (effLimit 50 plim)]

/-- The two-level plan built by the unused helper
`MatrioskaRetriever._get_matryoska_prefetch` (defaults 100 and 50). -/
def get_matryoska_prefetch (limit_small_vector : Nat := 100)
    (limit_large_vector : Nat := 50) : List Plan :=
  [Plan.nested [Plan.leaf VectorField.smallEmbedding limit_small_vector]
    VectorField.largeEmbedding limit_large_vector]

/-- `MatrioskaRetriever.retrieve`: accepts `score_threshold` but never
passes it to `query_points` (the call sends no threshold). -/
def matrioskaRetrieve (st : Store) (lim : Nat) (plim : Option Nat)
    (_score_threshold : Option Int) : Except String (List (List (String × Val))) :=
  formatResults (mkPoints st VectorField.largeEmbedding
    (queryPoints st (matrioskaPrefetch plim) VectorField.largeEmbedding lim none))

theorem forall2_mem_right {α β : Type} {R : α → β → Prop} :
    ∀ {as : List α} {bs : List β}, List.Forall₂ R as bs → ∀ b ∈ bs, ∃ a ∈ as, R a b := by
  intro as bs h
  induction h with
  | nil => intro b hb; simp at hb
  | cons hR hrest ih =>
    intro b hb
    rcases List.mem_cons.mp hb with rfl | hb'
    · exact ⟨_, List.mem_cons_self _ _, hR⟩
    · obtain ⟨a, ha, haR⟩ := ih b hb'
      exact ⟨a, List.mem_cons_of_mem _ ha, haR⟩

theorem nodup_subset_length_le {α : Type} [DecidableEq α] {l1 l2 : List α}
    (hnd : l1.Nodup) (hsub : ∀ a ∈ l1, a ∈ l2) : l1.length ≤ l2.length := by
  have h1 : l1.toFinset.card = l1.length := List.toFinset_card_of_nodup hnd
  have h2 : l1.toFinset ⊆ l2.toFinset := by
    intro a ha
    rw [List.mem_toFinset] at ha
    rw [List.mem_toFinset]
    exact hsub a ha
  calc l1.length = l1.toFinset.card := h1.symm
    _ ≤ l2.toFinset.card := Finset.card_le_card h2
    _ ≤ l2.length := List.toFinset_card_le l2

/-- C9 (amended): the staged query `MatrioskaRetriever.retrieve` actually
sends is one-level — a small-embedding prefetch of `prefetch_limit or 50`
reranked by the large-embedding field down to `limit` — so the final
candidate set is a subset of the stage-1 small-embedding candidate set, and
the output length is at most min(limit, prefetch_limit or 50). -/
theorem matrioska_staging (st : Store) (lim : Nat) (plim : Option Nat)
    (thr : Option Int) (out : List (List (String × Val)))
    (hnd : (st.ranking VectorField.largeEmbedding).Nodup)
    (h : matrioskaRetrieve st lim plim thr = Except.ok out) :
    out.length ≤ lim ∧
    out.length ≤ effLimit 50 plim ∧
    (∀ r ∈ out, ∃ i : Nat,
      r.lookup "id" = some (Val.vInt (Int.ofNat i)) ∧
      i ∈ (st.ranking VectorField.smallEmbedding).take (effLimit 50 plim)) := by
  rw [matrioskaRetrieve] at h
  obtain ⟨hlen, hf2⟩ := formatResults_spec _ out h
  have hq : queryPoints st (matrioskaPrefetch plim) VectorField.largeEmbedding lim none =
      (((st.ranking VectorField.largeEmbedding).filter
        (fun q => ((execPlans st
          [Plan.leaf VectorField.smallEmbedding (effLimit 50 plim)]).flatten.contains
            q))).filter
            (thrOk st VectorField.largeEmbedding none)).take lim := rfl
  have hmem : ∀ i ∈ queryPoints st (matrioskaPrefetch plim) VectorField.largeEmbedding
      lim none, i ∈ (st.ranking VectorField.smallEmbedding).take (effLimit 50 plim) := by
    intro i hi
    rw [hq] at hi
    have hi2 := List.mem_of_mem_take hi
    rw [List.mem_filter] at hi2
    rw [List.mem_filter] at hi2
    obtain ⟨⟨-, hc⟩, -⟩ := hi2
    rw [List.elem_iff] at hc
    simp only [execPlans, List.flatten_cons, List.flatten_nil, List.append_nil,
      List.mem_append] at hc
    rw [execPlan] at hc
    exact hc
  have hnodup : (queryPoints st (matrioskaPrefetch plim) VectorField.largeEmbedding
      lim none).Nodup := by
    rw [hq]
    exact ((((hnd.filter _).filter _)).sublist (List.take_sublist _ _))
  have hlen2 : (mkPoints st VectorField.largeEmbedding
      (queryPoints st (matrioskaPrefetch plim) VectorField.largeEmbedding lim none)).length =
      (queryPoints st (matrioskaPrefetch plim) VectorField.largeEmbedding lim none).length := by
    rw [mkPoints, List.length_map]
  refine ⟨?_, ?_, ?_⟩
  · rw [hlen, hlen2, hq, List.length_take]
    exact Nat.min_le_left _ _
  · rw [hlen, hlen2]
    have h1 : (queryPoints st (matrioskaPrefetch plim) VectorField.largeEmbedding
        lim none).length ≤
        ((st.ranking VectorField.smallEmbedding).take (effLimit 50 plim)).length :=
      nodup_subset_length_le hnodup hmem
    have h2 : ((st.ranking VectorField.smallEmbedding).take
        (effLimit 50 plim)).length ≤ effLimit 50 plim := by
      rw [List.length_take]
      exact Nat.min_le_left _ _
    exact h1.trans h2
  · intro r hr
    obtain ⟨pt, hpt, hspec⟩ := forall2_mem_right hf2 r hr
    rw [mkPoints] at hpt
    rw [List.mem_map] at hpt
    obtain ⟨i, hi, hpteq⟩ := hpt
    refine ⟨i, ?_, hmem i hi⟩
    obtain ⟨-, hid, -⟩ := hspec
    rw [hid, ← hpteq]

/-- Concrete store for the C9 witness: three points, small-embedding order
1,2,3 and large-embedding order 3,2,1. -/
def wStore : Store :=
  { ranking := fun f => match f with
      | VectorField.smallEmbedding => [1, 2, 3]
      | VectorField.largeEmbedding => [3, 2, 1]
      | _ => []
    score := fun _ i => Int.ofNat i
    payload := fun _ => [] }

def wOut : List (List (String × Val)) :=
  match matrioskaRetrieve wStore 2 (some 2) none with
  | Except.ok o => o
  | Except.error _ => []

/-- Witness for C9 at the concrete store: with limit 2 and prefetch limit 2
the retrieve output has at most two records, bounded by both limits. -/
theorem matrioska_staging_witness :
    wOut.length ≤ 2 ∧ wOut.length ≤ effLimit 50 (some 2) :=
  ⟨(matrioska_staging wStore 2 (some 2) none wOut (by decide) (by rfl)).1,
   (matrioska_staging wStore 2 (some 2) none wOut (by decide) (by rfl)).2.1⟩

/-- C9 counterexample: at default arguments the prefetch `retrieve` sends is
the one-level `Prefetch(small-embedding, limit=50)` — not the two-level
100-candidate stage reranked to 50 that the claim describes (that plan is
built only by the unused helper `_get_matryoska_prefetch`). -/
theorem matrioska_two_level_counterexample :
    matrioskaPrefetch none = [Plan.leaf VectorField.smallEmbedding 50] ∧
    get_matryoska_prefetch 100 50 =
      [Plan.nested [Plan.leaf VectorField.smallEmbedding 100]
        VectorField.largeEmbedding 50] ∧
    Plan.leaf VectorField.smallEmbedding 50 ≠
      Plan.nested [Plan.leaf VectorField.smallEmbedding 100]
        VectorField.largeEmbedding 50 ∧
    (50 : Nat) ≠ 100 :=
  ⟨rfl, rfl, fun h => Plan.noConfusion h, by decide⟩

/-- Concrete store for the C10 contrast: two points with colbert scores 5
and 3. -/
def cStore : Store :=
  { ranking := fun f => match f with
      | VectorField.colbert => [1, 2]
      | VectorField.dense => [1, 2]
      | _ => []
    score := fun _ i => if i = 1 then 5 else 3
    payload := fun _ => [] }

/-- C10: `MatrioskaRetriever.retrieve` accepts `score_threshold` but never
forwards it, so its output is identical for any two threshold arguments;
ColBERT and Hybrid do forward it, and a threshold of 4 visibly changes
their output on `cStore`. -/
theorem matrioska_threshold_independent :
    (∀ (st : Store) (lim : Nat) (plim : Option Nat) (t1 t2 : Option Int),
      matrioskaRetrieve st lim plim t1 = matrioskaRetrieve st lim plim t2) ∧
    colbertRetrieve cStore 10 (some 4) ≠ colbertRetrieve cStore 10 none ∧
    hybridRetrieve cStore 10 none (some 4) ≠ hybridRetrieve cStore 10 none none := by
  refine ⟨fun st lim plim t1 t2 => rfl, ?_, ?_⟩
  · decide
  · decide

end Gigo
